import Mathlib

/-
Verification of the live-traffic tracker of vrclivetraffic.

The development shallowly embeds the parts of the source relevant to the
tracker and the FSD position emission:
  - src/util.rs      : AircraftData, combine_with, the three regexes
  - src/interpolate.rs : InterpolatePosition (positions as rationals; the
                         source's f32 values are modelled exactly where the
                         claims need them)
  - src/tracker.rs   : Tracker, TrackData and all tracker operations
  - src/main.rs      : build_aircraft_string and the position-cadence choice

Wall-clock instants (std::time::Instant) are modelled as rational numbers of
seconds.  The f32 trigonometry in Vector2D::from_heading_and_speed is
modelled by an arbitrary function `trig : heading ↦ (cos, sin)` over which
all general theorems are universally quantified; concrete scenarios use
heading 0, where the source's f32 computation is exact (cos 0 = 1, sin 0 = 0).
-/

-- ===== Character classes (ASCII, as in the source's regexes) =====

/-- Characters matched by the regex class `[A-Z]`. -/
def upperAZ (c : Char) : Bool := 'A' ≤ c && c ≤ 'Z'

/-- Characters matched by the regex class `[0-9]` / `\d`. -/
def digit09 (c : Char) : Bool := '0' ≤ c && c ≤ '9'

/-- Characters matched by the (buggy) regex class `[A-z]` of AIRLINE_REGEX in
src/util.rs: every ASCII codepoint between 'A' and 'z', which also includes
the punctuation characters between 'Z' and 'a'. -/
def rangeAz (c : Char) : Bool := 'A' ≤ c && c ≤ 'z'

-- ===== Regex matchers from src/util.rs =====
-- All three source regexes are used through `Regex::is_match`, i.e. only the
-- existence of a match anywhere in the string matters.  For each regex, a
-- match exists at a given position iff the minimal form of the regex matches
-- there (repetitions at their least counts), so the matchers below test the
-- minimal form at every starting position.

/-- A match of AIRLINE_REGEX `[A-z]{3}\d+` starts at the head of the list:
three `[A-z]` characters followed by at least one digit. -/
def airline_here (l : List Char) : Bool :=
  match l with
  | a :: b :: c :: d :: _ => rangeAz a && rangeAz b && rangeAz c && digit09 d
  | _ => false

/-- Model of `Regex::is_match` for AIRLINE_REGEX `[A-z]{3}\d+` (src/util.rs line 9):
a match starts at some position of the string. -/
def airline_search : List Char → Bool
  | [] => false
  | c :: tl => airline_here (c :: tl) || airline_search tl

/-- A match of CALLSIGN_REGEX `[A-Z]{3}[A-Z0-9]{1,}` starts at the head:
three uppercase letters followed by at least one uppercase letter or digit. -/
def callsign_here (l : List Char) : Bool :=
  match l with
  | a :: b :: c :: d :: _ => upperAZ a && upperAZ b && upperAZ c && (upperAZ d || digit09 d)
  | _ => false

/-- Model of `Regex::is_match` for CALLSIGN_REGEX (src/util.rs line 10). -/
def callsign_search : List Char → Bool
  | [] => false
  | c :: tl => callsign_here (c :: tl) || callsign_search tl

/-- A match of REGISTRATION_REGEX
`[A-Z]-[A-Z]{4}|[A-Z]{2}-[A-Z]{3}|N[0-9]{1,5}[A-Z]{0,2}` starts at the head.
The third branch matches iff its minimal form `N` followed by one digit
matches (the trailing uppercase letters may repeat zero times and the digits
at least once). -/
def reg_here (l : List Char) : Bool :=
  (match l with
   | a :: b :: c :: d :: e :: f :: _ =>
       (upperAZ a && b = '-' && upperAZ c && upperAZ d && upperAZ e && upperAZ f)
       || (upperAZ a && upperAZ b && c = '-' && upperAZ d && upperAZ e && upperAZ f)
   | _ => false)
  || (match l with
      | a :: b :: _ => a = 'N' && digit09 b
      | _ => false)

/-- Model of `Regex::is_match` for REGISTRATION_REGEX (src/util.rs lines 11-12). -/
def reg_search : List Char → Bool
  | [] => false
  | c :: tl => reg_here (c :: tl) || reg_search tl

/-- Model of `is_valid_callsign` from src/util.rs lines 23-25. -/
def is_valid_callsign (s : String) : Bool :=
  callsign_search s.data || reg_search s.data

/-- The test `callsign.trim() == ""` of src/tracker.rs line 187: the trimmed
string is empty exactly when every character is whitespace. -/
def trim_empty (s : String) : Bool :=
  s.data.all (fun c => c.isWhitespace)

-- ===== AircraftData (src/util.rs lines 59-74) =====

/-- The flat aircraft record of src/util.rs.  The trait-object `BoxedData`
used by src/tracker.rs exposes exactly these fields through accessor
methods (`callsign()`, `latitude()`, ...); both are modelled by this
structure.  Latitude and longitude are modelled as rationals. -/
structure AircraftData where
  squawk : String
  callsign : String
  is_on_ground : Bool
  latitude : ℚ
  longitude : ℚ
  heading : Nat
  ground_speed : Nat
  timestamp : Nat
  altitude : Int
  model : String
  hex : String
  origin : String
  destination : String
  provider : String
deriving DecidableEq

/-- Model of `AircraftData::is_airline` (src/util.rs lines 77-79). -/
def AircraftData.is_airline (a : AircraftData) : Bool :=
  airline_search a.callsign.data

/-- Model of `AircraftData::combine_with` (src/util.rs lines 85-114).  `self` is the
left operand, `rhs` the right one, exactly as in the source. -/
def AircraftData.combine_with (self rhs : AircraftData) : AircraftData :=
  let update_space : Bool := rhs.timestamp > self.timestamp
  { squawk := self.squawk
    callsign := if is_valid_callsign self.callsign then self.callsign else rhs.callsign
    is_on_ground := self.is_on_ground
    latitude := if self.latitude ≠ 0 && !update_space then self.latitude else rhs.latitude
    longitude := if self.longitude ≠ 0 && !update_space then self.longitude else rhs.longitude
    heading := if !update_space then self.heading else rhs.heading
    ground_speed := self.ground_speed
    timestamp := self.timestamp
    altitude := if self.altitude ≠ 0 && !update_space then self.altitude else rhs.altitude
    model := if self.model = "" then self.model else rhs.model
    hex := self.hex
    origin := if self.origin ≠ "" && !update_space then self.origin else rhs.origin
    destination := if self.destination ≠ "" && !update_space then self.destination else rhs.destination
    provider := "Combined" }

-- ===== Interpolator (src/interpolate.rs) =====

/-- Model of `LatLon` from src/interpolate.rs. -/
structure LatLon where
  lat : ℚ
  lon : ℚ
deriving DecidableEq

/-- State of `InterpolatePosition` (src/interpolate.rs lines 37-42); `time`
is the wall-clock instant recorded at construction. -/
structure InterpolatePosition where
  pos : LatLon
  speed : LatLon
  time : ℚ
  last_call : LatLon
deriving DecidableEq

/-- Model of `InterpolatePosition::default` (src/interpolate.rs lines 44-53): the
zero fix, zero velocity and zero cache, stamped with the current instant. -/
def InterpolatePosition.default (now : ℚ) : InterpolatePosition :=
  { pos := ⟨0, 0⟩, speed := ⟨0, 0⟩, time := now, last_call := ⟨0, 0⟩ }

/-- Model of `InterpolatePosition::new` (src/interpolate.rs lines 56-69).  `trig h`
models the pair `(cos, sin)` that the source's f32 code computes for a
heading of `h` degrees; the velocity conversion divides by 69 (resp. 54.6)
miles per degree and by 3600 to obtain degrees per second. -/
def InterpolatePosition.new (trig : Nat → ℚ × ℚ) (lat lon : ℚ)
    (heading gspeed : Nat) (now : ℚ) : InterpolatePosition :=
  let sx : ℚ := (trig heading).1 * (gspeed : ℚ)
  let sy : ℚ := (trig heading).2 * (gspeed : ℚ)
  { pos := ⟨lat, lon⟩
    speed := ⟨sx / 69 / 3600, sy / (546/10) / 3600⟩
    time := now
    last_call := ⟨lat, lon⟩ }

/-- Model of `InterpolatePosition::get` (src/interpolate.rs lines 71-78) at wall
clock `now`: dead-reckons the fix forward by `max (now - time - 1) 0`
seconds (INTERPOLATE_OFFSET = 1.0) and caches the result in `last_call`.
Returns the produced position together with the mutated state. -/
def InterpolatePosition.get (ip : InterpolatePosition) (now : ℚ) :
    LatLon × InterpolatePosition :=
  let el : ℚ := max (now - ip.time - 1) 0
  let p : LatLon := ⟨ip.pos.lat + ip.speed.lat * el, ip.pos.lon + ip.speed.lon * el⟩
  (p, { ip with last_call := p })

/-- Model of `InterpolatePosition::get_no_update` (src/interpolate.rs lines 80-82). -/
def InterpolatePosition.get_no_update (ip : InterpolatePosition) : LatLon :=
  ip.last_call

-- ===== Flight plans (src/flightaware.rs, shape only) =====

/-- Flight-plan payload; its contents are opaque to every claim about the
tracker, so it is modelled by an abstract tag. -/
structure FlightPlan where
  tag : Nat
deriving DecidableEq

/-- Model of `FlightPlanResult` (src/flightaware.rs lines 101-106). -/
structure FPResult where
  id : String
  callsign : String
  fp : FlightPlan
deriving DecidableEq

-- ===== TrackData (src/tracker.rs lines 254-279) =====

/-- Model of `TrackData` from src/tracker.rs.  `at_last_position_update` is the
wall-clock instant of the last accepted position update (an `Instant` in the
source). -/
structure TrackData where
  id : String
  fp_did_try_update : Bool
  fp : Option FlightPlan
  last_position_update : Nat
  at_last_position_update : ℚ
  position : InterpolatePosition
  ac_data : AircraftData
deriving DecidableEq

/-- Model of `TrackData::new` (src/tracker.rs lines 267-279): flight plan unset,
flag false, provider timestamp 0, wall clock stamped now, and the
interpolator left at `InterpolatePosition::default`. -/
def TrackData.new (id : String) (ac : AircraftData) (now : ℚ) : TrackData :=
  { id := id
    fp_did_try_update := false
    fp := none
    last_position_update := 0
    at_last_position_update := now
    position := InterpolatePosition.default now
    ac_data := ac }

-- ===== Association-list maps (model of std HashMap over String keys) =====

/-- Lookup in an association list, first matching key wins
(model of `HashMap::get`). -/
def mlookup {α : Type} : List (String × α) → String → Option α
  | [], _ => none
  | (k, v) :: tl, k' => if k = k' then some v else mlookup tl k'

/-- Remove every pair with the given key (model of `HashMap::remove`). -/
def mremove {α : Type} : List (String × α) → String → List (String × α)
  | [], _ => []
  | (k, v) :: tl, k' => if k = k' then mremove tl k' else (k, v) :: mremove tl k'

/-- Insert, replacing any pair with the same key
(model of `HashMap::insert`). -/
def minsert {α : Type} (m : List (String × α)) (k : String) (v : α) :
    List (String × α) :=
  (k, v) :: mremove m k

/-- Membership test for a list of keys (model of `HashSet::contains` /
`Vec::contains`). -/
def elem_s : List String → String → Bool
  | [], _ => false
  | x :: tl, y => if x = y then true else elem_s tl y

-- ===== Tracker state (src/tracker.rs lines 16-28) =====

/-- The tracker's mutable state.  `fp_jobs` is the (append-only) log of
flight-plan jobs handed to `FlightAware::request_flightplan`, recording the
observable effect of `try_update_flightplan`.  `floor` and `ceiling` are the
altitude band set at construction. -/
structure Tracker where
  buffer : List (List (String × AircraftData))
  is_buffering : Bool
  tracking : List (String × TrackData)
  callsign_map : List (String × String)
  fp_jobs : List (String × String)
  floor : Int
  ceiling : Int
deriving DecidableEq

/-- Model of `Tracker::new` (src/tracker.rs lines 31-48): empty buffer and maps,
buffering off. -/
def Tracker.init (fl ce : Int) : Tracker :=
  { buffer := [], is_buffering := false, tracking := [], callsign_map := []
    fp_jobs := [], floor := fl, ceiling := ce }

/-- Model of `try_update_flightplan` (src/tracker.rs lines 54-74): if the hex is
tracked, no plan is attached and no attempt was made, set the flag and, when
the stored callsign matches AIRLINE_REGEX, log a flight-plan job for
`(hex, stored callsign)`. -/
def Tracker.try_update_flightplan (st : Tracker) (id : String) : Tracker :=
  match mlookup st.tracking id with
  | none => st
  | some d =>
    if d.fp.isSome || d.fp_did_try_update then st
    else if d.ac_data.is_airline then
      { st with
          tracking := minsert st.tracking id { d with fp_did_try_update := true }
          fp_jobs := st.fp_jobs ++ [(id, d.ac_data.callsign)] }
    else
      { st with tracking := minsert st.tracking id { d with fp_did_try_update := true } }

/-- Model of `update_flightplan` (src/tracker.rs lines 76-80): attach the plan if the
hex is still tracked, otherwise do nothing. -/
def Tracker.update_flightplan (st : Tracker) (id : String) (fp : FlightPlan) :
    Tracker :=
  match mlookup st.tracking id with
  | none => st
  | some d => { st with tracking := minsert st.tracking id { d with fp := some fp } }

/-- Model of `check_and_create_new_aircraft` (src/tracker.rs lines 83-106).  Returns
the new state together with `true` iff the snapshot was consumed to create a
track (the source returning `None`).  A track is created only when the hex is
untracked, the callsign is not in the callsign map and the callsign is longer
than 4 characters. -/
def Tracker.check_and_create (st : Tracker) (id : String) (data : AircraftData)
    (now : ℚ) : Tracker × Bool :=
  if (mlookup st.tracking id).isSome then (st, false)
  else if (mlookup st.callsign_map data.callsign).isSome then (st, false)
  else if data.callsign.length ≤ 4 then (st, false)
  else
    ({ st with
        callsign_map := minsert st.callsign_map data.callsign id
        tracking := minsert st.tracking id (TrackData.new id data now) },
     true)

/-- Model of `update_position` (src/tracker.rs lines 153-171): ignore the snapshot
unless its provider timestamp is strictly newer than the track's
`last_position_update`; otherwise rebuild the interpolator from the new
kinematics and stamp both timestamps.  The stored `ac_data` is not touched. -/
def Tracker.update_position (trig : Nat → ℚ × ℚ) (now : ℚ) (st : Tracker)
    (id : String) (new_ac_data : AircraftData) : Tracker :=
  match mlookup st.tracking id with
  | none => st
  | some d =>
    if new_ac_data.timestamp ≤ d.last_position_update then st
    else
      { st with
          tracking := minsert st.tracking id
            { d with
                position := InterpolatePosition.new trig new_ac_data.latitude
                  new_ac_data.longitude new_ac_data.heading new_ac_data.ground_speed now
                last_position_update := new_ac_data.timestamp
                at_last_position_update := now } }

/-- Model of `remove_untracked` (src/tracker.rs lines 109-123): drop every track whose
hex is not among `keys`, and remove each dropped track's callsign from the
callsign map. -/
def Tracker.remove_untracked (st : Tracker) (keys : List String) : Tracker :=
  { st with
      tracking := st.tracking.filter (fun p => elem_s keys p.1)
      callsign_map :=
        (st.tracking.filterMap
          (fun p => if elem_s keys p.1 then none else some p.2.ac_data.callsign)).foldl
          (fun m cs => mremove m cs) st.callsign_map }

/-- One iteration of the loop body of `update_aircraft`
(src/tracker.rs lines 181-200): skip ids already processed, snapshots with a
whitespace-only callsign, and snapshots outside the altitude band; otherwise
create the track or update it (position, then flight-plan attempt), and mark
the id processed. -/
def Tracker.process_one (trig : Nat → ℚ × ℚ) (now : ℚ)
    (acc : Tracker × List String) (p : String × AircraftData) :
    Tracker × List String :=
  if elem_s acc.2 p.1 then acc
  else if trim_empty p.2.callsign then acc
  else if p.2.altitude < acc.1.floor ∨ p.2.altitude > acc.1.ceiling then acc
  else if (Tracker.check_and_create acc.1 p.1 p.2 now).2 then
    ((Tracker.check_and_create acc.1 p.1 p.2 now).1, acc.2 ++ [p.1])
  else
    (Tracker.try_update_flightplan
       (Tracker.update_position trig now (Tracker.check_and_create acc.1 p.1 p.2 now).1 p.1 p.2)
       p.1,
     acc.2 ++ [p.1])

/-- Application of one dequeued batch: the loop of `update_aircraft`
(src/tracker.rs lines 179-202) followed by `remove_untracked` on the set of
processed ids. -/
def Tracker.apply_batch (trig : Nat → ℚ × ℚ) (now : ℚ) (st : Tracker)
    (batch : List (String × AircraftData)) : Tracker :=
  Tracker.remove_untracked
    (batch.foldl (Tracker.process_one trig now) (st, [])).1
    (batch.foldl (Tracker.process_one trig now) (st, [])).2

/-- Model of `update_aircraft` together with `get_next_aircraft_update`
(src/tracker.rs lines 125-151 and 173-203): the freshly fetched batch is
always enqueued; while buffering nothing else happens, otherwise the front
batch is dequeued and applied. -/
def Tracker.update_aircraft (trig : Nat → ℚ × ℚ) (now : ℚ) (st : Tracker)
    (fetched : List (String × AircraftData)) : Tracker :=
  if st.is_buffering then { st with buffer := st.buffer ++ [fetched] }
  else
    match st.buffer ++ [fetched] with
    | [] => { st with buffer := [] }
    | b :: rest => Tracker.apply_batch trig now { st with buffer := rest } b

-- ===== Events driving the tracker =====

/-- Environment events: a 3-second poll delivering the merged provider
batch at a wall-clock instant, a flight-plan result (`step_flightplan`,
src/tracker.rs lines 206-216), and the buffering switches
(src/tracker.rs lines 241-247). -/
inductive TEvent where
  | poll (fetched : List (String × AircraftData)) (now : ℚ)
  | fpOk (r : FPResult)
  | fpErr (e : String)
  | bufferOn
  | bufferOff
deriving DecidableEq

/-- One tracker transition for one event. -/
def Tracker.step (trig : Nat → ℚ × ℚ) (st : Tracker) : TEvent → Tracker
  | TEvent.poll fetched now => Tracker.update_aircraft trig now st fetched
  | TEvent.fpOk r => Tracker.update_flightplan st r.id r.fp
  | TEvent.fpErr _ => st
  | TEvent.bufferOn => { st with is_buffering := true }
  | TEvent.bufferOff => { st with is_buffering := false }

/-- A run of the tracker over a sequence of events. -/
def Tracker.run (trig : Nat → ℚ × ℚ) (st : Tracker) (evs : List TEvent) :
    Tracker :=
  evs.foldl (Tracker.step trig) st

-- ===== FIFO instrumentation for the buffer =====

/-- The batch a single event causes to be applied, if any: a poll while not
buffering applies the front of the queue grown by the fetched batch. -/
def Tracker.applied_now (st : Tracker) : TEvent → Option (List (String × AircraftData))
  | TEvent.poll fetched _ => if st.is_buffering then none else (st.buffer ++ [fetched]).head?
  | _ => none

/-- All batches applied over a run, in order. -/
def Tracker.applied_list (trig : Nat → ℚ × ℚ) (st : Tracker) :
    List TEvent → List (List (String × AircraftData))
  | [] => []
  | e :: tl =>
      (Tracker.applied_now st e).toList ++ Tracker.applied_list trig (Tracker.step trig st e) tl

/-- All batches fetched by polls over a run, in order. -/
def polled_list : List TEvent → List (List (String × AircraftData))
  | [] => []
  | TEvent.poll fetched _ :: tl => fetched :: polled_list tl
  | _ :: tl => polled_list tl

-- ===== Position emission (src/main.rs lines 36-58 and 334-343) =====

/-- The packed pitch/bank/heading word of `build_aircraft_string`
(src/main.rs lines 39-40): pitch and bank zero and the heading scaled to 10
bits, `(h / 360 · 1024)` truncated and shifted left by two.  For the headings
the providers deliver (0 ≤ h ≤ 360) the source's f64 computation is exactly
the integer division below. -/
def pbh_word (heading : Nat) : Nat :=
  heading * 1024 / 360 * 4

/-- Model of `build_aircraft_string` (src/main.rs lines 36-58): the FSD position line
for one track, interpolating when asked to, together with the mutated track
(`get` caches its result).  Numeric rendering of the rational coordinates
abstracts the source's float formatting. -/
def build_aircraft_string (data : TrackData) (should_interpolate : Bool)
    (now : ℚ) : String × TrackData :=
  let pb := pbh_word data.ac_data.heading
  let r := if should_interpolate
           then data.position.get now
           else (data.position.get_no_update, data.position)
  ("@N:" ++ data.ac_data.callsign ++ ":" ++ data.ac_data.squawk ++ ":1:"
     ++ toString r.1.lat ++ ":" ++ toString r.1.lon ++ ":"
     ++ toString data.ac_data.altitude ++ ":" ++ toString data.ac_data.ground_speed
     ++ ":" ++ toString pb ++ ":0" ++ "\r\n",
   { data with position := r.2 })

/-- The interpolation choice of the main loop (src/main.rs lines 336-337):
interpolate iff the aircraft is airborne and less than 20 seconds of wall
clock passed since the last accepted position update. -/
def choose_interpolate (d : TrackData) (now : ℚ) : Bool :=
  !d.ac_data.is_on_ground && decide (now - d.at_last_position_update < 20)

/-- The position cadence of the main loop (src/main.rs lines 323-324):
positions are emitted when no timer is set yet or at least five seconds
passed since the last emission. -/
def position_cadence_fires (timer : Option ℚ) (now : ℚ) : Bool :=
  match timer with
  | none => true
  | some t => decide (now - t ≥ 5)

-- ===== Concrete scenario data =====

/-- Trigonometry instance for concrete scenarios.  All concrete snapshots use
heading 0 degrees, where the source's f32 pipeline is exact:
`(0 : f32).to_radians() = 0`, `cos 0 = 1`, `sin 0 = 0`. -/
def trigConst : Nat → ℚ × ℚ := fun _ => (1, 0)

/-- An airliner snapshot: hex A1B2C3, callsign UAL123, fix (40, -74),
heading 0, 3600 kn, 10000 ft, provider timestamp 1000. -/
def acUAL : AircraftData :=
  { squawk := "1234", callsign := "UAL123", is_on_ground := false
    latitude := 40, longitude := -74, heading := 0, ground_speed := 3600
    timestamp := 1000, altitude := 10000, model := "B738", hex := "A1B2C3"
    origin := "KJFK", destination := "KLAX", provider := "p1" }

/-- The same aircraft one batch later: newer timestamp 2000, latitude 41. -/
def acUAL2 : AircraftData := { acUAL with latitude := 41, timestamp := 2000 }

/-- A general-aviation registration callsign of length 3 that matches
REGISTRATION_REGEX (`N` followed by digits). -/
def acN12 : AircraftData := { acUAL with callsign := "N12", timestamp := 1500 }

/-- The tracked aircraft reported far outside the altitude band. -/
def acHighAlt : AircraftData := { acUAL with altitude := 200000, timestamp := 3000 }

/-- The default tracker of the concrete scenarios: floor 0, ceiling 99999. -/
def st0 : Tracker := Tracker.init 0 99999

-- ===== Lemmas about the association-list maps =====

theorem mlookup_mremove {α : Type} (m : List (String × α)) (k k' : String) :
    mlookup (mremove m k) k' = if k' = k then none else mlookup m k' := by
  induction m with
  | nil => by_cases h : k' = k <;> simp [mremove, mlookup, h]
  | cons p tl ih =>
    obtain ⟨a, v⟩ := p
    simp only [mremove]
    by_cases hak : a = k
    · rw [if_pos hak, ih]
      by_cases hk : k' = k
      · simp [hk]
      · rw [if_neg hk, if_neg hk]
        have ha' : ¬a = k' := fun hh => hk (hak ▸ hh).symm
        simp [mlookup, ha']
    · rw [if_neg hak]
      by_cases hak' : a = k'
      · have hk : ¬k' = k := fun hh => hak (hak'.trans hh)
        simp [mlookup, hak', hk]
      · simp [mlookup, hak', ih]

theorem mlookup_minsert {α : Type} (m : List (String × α)) (k k' : String) (v : α) :
    mlookup (minsert m k v) k' = if k = k' then some v else mlookup m k' := by
  simp only [minsert, mlookup]
  by_cases h : k = k'
  · simp [h]
  · simp only [if_neg h]
    rw [mlookup_mremove, if_neg (fun hh : k' = k => h hh.symm)]

theorem elem_s_iff (l : List String) (y : String) : elem_s l y = true ↔ y ∈ l := by
  induction l with
  | nil => simp [elem_s]
  | cons x tl ih =>
    simp only [elem_s]
    by_cases h : x = y
    · simp [h]
    · have h' : ¬y = x := fun hh => h hh.symm
      simp [h, h', ih]

theorem mlookup_filter {α : Type} (f : String → Bool) (m : List (String × α)) (k : String) :
    mlookup (m.filter (fun p => f p.1)) k = if f k then mlookup m k else none := by
  induction m with
  | nil => by_cases h : f k <;> simp [mlookup, h]
  | cons p tl ih =>
    obtain ⟨a, v⟩ := p
    by_cases hak : a = k
    · subst hak
      cases hfa : f a <;> simp [mlookup, hfa, ih]
    · cases hfa : f a <;> simp [mlookup, hak, hfa, ih]

theorem mem_of_mlookup {α : Type} (m : List (String × α)) (k : String) (v : α)
    (h : mlookup m k = some v) : (k, v) ∈ m := by
  induction m with
  | nil => simp [mlookup] at h
  | cons p tl ih =>
    obtain ⟨a, w⟩ := p
    by_cases hak : a = k
    · subst hak
      simp [mlookup] at h
      simp [h]
    · simp [mlookup, hak] at h
      simp [ih h]

theorem mlookup_foldl_mremove {α : Type} (l : List String) (m : List (String × α))
    (k : String) :
    mlookup (l.foldl (fun acc cs => mremove acc cs) m) k
      = if k ∈ l then none else mlookup m k := by
  induction l generalizing m with
  | nil => simp
  | cons c tl ih =>
    simp only [List.foldl_cons]
    rw [ih]
    by_cases hk : k ∈ tl
    · simp [hk]
    · by_cases hc : k = c
      · simp [hk, hc, mlookup_mremove]
      · simp [hk, hc, mlookup_mremove]

-- ===== Key distinctness =====

/-- The keys of an association list are pairwise distinct (always true of the
model's maps, which are only ever grown through `minsert`). -/
def KeysND {α : Type} (m : List (String × α)) : Prop :=
  (m.map Prod.fst).Nodup

theorem sublist_mremove {α : Type} (m : List (String × α)) (k : String) :
    (mremove m k).Sublist m := by
  induction m with
  | nil => simp [mremove]
  | cons p tl ih =>
    obtain ⟨a, v⟩ := p
    by_cases hak : a = k
    · simp only [mremove, if_pos hak]
      exact ih.cons _
    · simp only [mremove, if_neg hak]
      exact ih.cons₂ _

theorem keysnd_mremove {α : Type} (m : List (String × α)) (k : String)
    (h : KeysND m) : KeysND (mremove m k) :=
  ((sublist_mremove m k).map Prod.fst).nodup h

theorem not_mem_keys_mremove {α : Type} (m : List (String × α)) (k : String) :
    k ∉ (mremove m k).map Prod.fst := by
  induction m with
  | nil => simp [mremove]
  | cons p tl ih =>
    obtain ⟨a, v⟩ := p
    by_cases hak : a = k
    · simpa [mremove, hak] using ih
    · simp only [mremove, if_neg hak, List.map_cons, List.mem_cons]
      push_neg
      exact ⟨fun hh => hak hh.symm, ih⟩

theorem keysnd_minsert {α : Type} (m : List (String × α)) (k : String) (v : α)
    (h : KeysND m) : KeysND (minsert m k v) := by
  simp only [KeysND, minsert, List.map_cons, List.nodup_cons]
  exact ⟨not_mem_keys_mremove m k, keysnd_mremove m k h⟩

theorem keysnd_filter {α : Type} (f : String × α → Bool) (m : List (String × α))
    (h : KeysND m) : KeysND (m.filter f) :=
  ((List.filter_sublist m).map Prod.fst).nodup h

theorem mlookup_eq_of_mem {α : Type} (m : List (String × α)) (k : String) (v : α)
    (hnd : KeysND m) (hm : (k, v) ∈ m) : mlookup m k = some v := by
  induction m with
  | nil => simp at hm
  | cons p tl ih =>
    obtain ⟨a, w⟩ := p
    simp only [KeysND, List.map_cons, List.nodup_cons] at hnd
    rcases List.mem_cons.mp hm with hh | hh
    · rw [Prod.mk.injEq] at hh
      simp [mlookup, hh.1, hh.2]
    · by_cases hak : a = k
      · exfalso
        apply hnd.1
        subst hak
        exact List.mem_map.mpr ⟨(a, v), hh, rfl⟩
      · simpa [mlookup, hak] using ih hnd.2 hh

-- ===== The callsign-index / track-map invariant =====

/-- Mutual-inverse property between the track map and the callsign index:
the index maps `cs` to `h` exactly when the track stored under `h` carries
callsign `cs`.  Together with distinctness of the track map's keys this is
the reachable-state invariant of the tracker. -/
def InvMaps (tr : List (String × TrackData)) (cm : List (String × String)) : Prop :=
  KeysND tr ∧
  ∀ cs h, mlookup cm cs = some h ↔
    ∃ d, mlookup tr h = some d ∧ d.ac_data.callsign = cs

theorem invmaps_nil : InvMaps [] [] := by
  constructor
  · simp [KeysND]
  · intro cs h
    simp [mlookup]

theorem invmaps_update (tr : List (String × TrackData)) (cm : List (String × String))
    (h0 : String) (d d' : TrackData) (hinv : InvMaps tr cm)
    (hd : mlookup tr h0 = some d)
    (hcs : d'.ac_data.callsign = d.ac_data.callsign) :
    InvMaps (minsert tr h0 d') cm := by
  obtain ⟨hnd, hiff⟩ := hinv
  refine ⟨keysnd_minsert _ _ _ hnd, ?_⟩
  intro cs h
  rw [hiff cs h, mlookup_minsert]
  by_cases hh : h0 = h
  · subst hh
    simp [hd, hcs]
  · simp [hh]

theorem invmaps_create (tr : List (String × TrackData)) (cm : List (String × String))
    (h0 : String) (d0 : TrackData) (hinv : InvMaps tr cm)
    (htr : mlookup tr h0 = none)
    (hcm : mlookup cm d0.ac_data.callsign = none) :
    InvMaps (minsert tr h0 d0) (minsert cm d0.ac_data.callsign h0) := by
  obtain ⟨hnd, hiff⟩ := hinv
  refine ⟨keysnd_minsert _ _ _ hnd, ?_⟩
  intro cs h
  rw [mlookup_minsert, mlookup_minsert]
  by_cases hcs : d0.ac_data.callsign = cs
  · rw [if_pos hcs]
    by_cases hh : h0 = h
    · subst hh
      simp [hcs]
    · simp only [if_neg hh]
      constructor
      · intro heq
        exact absurd (Option.some.inj heq) hh
      · rintro ⟨d, hdl, hdc⟩
        have : mlookup cm cs = some h := (hiff cs h).mpr ⟨d, hdl, hdc⟩
        rw [hcs] at hcm
        rw [hcm] at this
        cases this
  · rw [if_neg hcs]
    by_cases hh : h0 = h
    · subst hh
      constructor
      · intro hl
        obtain ⟨d, hdl, _⟩ := (hiff cs h0).mp hl
        rw [htr] at hdl
        cases hdl
      · rintro ⟨d, hdl, hdc⟩
        rw [if_pos rfl] at hdl
        have : d = d0 := (Option.some.inj hdl).symm
        subst this
        exact absurd hdc hcs
    · rw [if_neg hh]
      exact hiff cs h

theorem invmaps_remove (tr : List (String × TrackData)) (cm : List (String × String))
    (keys : List String) (hinv : InvMaps tr cm) :
    InvMaps (tr.filter (fun p => elem_s keys p.1))
      ((tr.filterMap
          (fun p => if elem_s keys p.1 then none else some p.2.ac_data.callsign)).foldl
        (fun m cs => mremove m cs) cm) := by
  obtain ⟨hnd, hiff⟩ := hinv
  refine ⟨keysnd_filter _ _ hnd, ?_⟩
  intro cs h
  rw [mlookup_foldl_mremove, mlookup_filter]
  by_cases hmem : cs ∈ tr.filterMap
      (fun p => if elem_s keys p.1 then none else some p.2.ac_data.callsign)
  · rw [if_pos hmem]
    constructor
    · intro hc
      cases hc
    · rintro ⟨d, hd, hdc⟩
      by_cases hkh : elem_s keys h = true
      · rw [if_pos hkh] at hd
        obtain ⟨p, hp, hpe⟩ := List.mem_filterMap.mp hmem
        by_cases hk1 : elem_s keys p.1 = true
        · rw [if_pos hk1] at hpe
          cases hpe
        · rw [if_neg hk1] at hpe
          have hpe' : p.2.ac_data.callsign = cs := Option.some.inj hpe
          have hp' : (p.1, p.2) ∈ tr := by simpa using hp
          have hlook : mlookup tr p.1 = some p.2 :=
            mlookup_eq_of_mem tr p.1 p.2 hnd hp'
          have h1 : mlookup cm cs = some p.1 := (hiff cs p.1).mpr ⟨p.2, hlook, hpe'⟩
          have h2 : mlookup cm cs = some h := (hiff cs h).mpr ⟨d, hd, hdc⟩
          have hph : p.1 = h := by
            rw [h1] at h2
            exact Option.some.inj h2
          rw [hph] at hk1
          exact (hk1 hkh).elim
      · rw [if_neg hkh] at hd
        cases hd
  · rw [if_neg hmem]
    constructor
    · intro hl
      obtain ⟨d, hd, hdc⟩ := (hiff cs h).mp hl
      have hkh : elem_s keys h = true := by
        by_contra hkh
        apply hmem
        refine List.mem_filterMap.mpr ⟨(h, d), mem_of_mlookup _ _ _ hd, ?_⟩
        rw [if_neg hkh, hdc]
      exact ⟨d, by rw [if_pos hkh]; exact hd, hdc⟩
    · rintro ⟨d, hd, hdc⟩
      by_cases hkh : elem_s keys h = true
      · rw [if_pos hkh] at hd
        exact (hiff cs h).mpr ⟨d, hd, hdc⟩
      · rw [if_neg hkh] at hd
        cases hd

/-- The invariant as a predicate of a tracker state. -/
def TrackerInv (st : Tracker) : Prop :=
  InvMaps st.tracking st.callsign_map

theorem check_and_create_not_created (st : Tracker) (id : String) (a : AircraftData)
    (now : ℚ) (h : (Tracker.check_and_create st id a now).2 = false) :
    (Tracker.check_and_create st id a now).1 = st := by
  unfold Tracker.check_and_create at h ⊢
  split_ifs at h ⊢ <;> simp_all

theorem inv_check_and_create (st : Tracker) (id : String) (a : AircraftData) (now : ℚ)
    (h : TrackerInv st) : TrackerInv (Tracker.check_and_create st id a now).1 := by
  unfold Tracker.check_and_create
  split_ifs with h1 h2 h3
  · exact h
  · exact h
  · exact h
  · exact invmaps_create st.tracking st.callsign_map id (TrackData.new id a now) h
      (Option.not_isSome_iff_eq_none.mp h1) (Option.not_isSome_iff_eq_none.mp h2)

theorem inv_update_position (trig : Nat → ℚ × ℚ) (now : ℚ) (st : Tracker)
    (id : String) (a : AircraftData) (h : TrackerInv st) :
    TrackerInv (Tracker.update_position trig now st id a) := by
  unfold Tracker.update_position
  cases hm : mlookup st.tracking id with
  | none => exact h
  | some d =>
    dsimp only
    split_ifs with h1
    · exact h
    · exact invmaps_update _ _ _ _ _ h hm rfl

theorem inv_try_update (st : Tracker) (id : String) (h : TrackerInv st) :
    TrackerInv (Tracker.try_update_flightplan st id) := by
  unfold Tracker.try_update_flightplan
  cases hm : mlookup st.tracking id with
  | none => exact h
  | some d =>
    dsimp only
    split_ifs with h1 h2
    · exact h
    · exact invmaps_update _ _ _ _ _ h hm rfl
    · exact invmaps_update _ _ _ _ _ h hm rfl

theorem inv_update_flightplan (st : Tracker) (id : String) (fp : FlightPlan)
    (h : TrackerInv st) : TrackerInv (Tracker.update_flightplan st id fp) := by
  unfold Tracker.update_flightplan
  cases hm : mlookup st.tracking id with
  | none => exact h
  | some d => exact invmaps_update _ _ _ _ _ h hm rfl

theorem inv_process_one (trig : Nat → ℚ × ℚ) (now : ℚ) (acc : Tracker × List String)
    (p : String × AircraftData) (h : TrackerInv acc.1) :
    TrackerInv (Tracker.process_one trig now acc p).1 := by
  unfold Tracker.process_one
  split_ifs with h1 h2 h3 h4
  · exact h
  · exact h
  · exact h
  · exact inv_check_and_create _ _ _ _ h
  · exact inv_try_update _ _ (inv_update_position _ _ _ _ _ (inv_check_and_create _ _ _ _ h))

theorem inv_foldl_process (trig : Nat → ℚ × ℚ) (now : ℚ)
    (batch : List (String × AircraftData)) :
    ∀ acc : Tracker × List String, TrackerInv acc.1 →
      TrackerInv (batch.foldl (Tracker.process_one trig now) acc).1 := by
  induction batch with
  | nil => intro acc h; simpa using h
  | cons p tl ih =>
    intro acc h
    simpa using ih _ (inv_process_one trig now acc p h)

theorem inv_remove_untracked (st : Tracker) (keys : List String) (h : TrackerInv st) :
    TrackerInv (Tracker.remove_untracked st keys) := by
  unfold Tracker.remove_untracked
  exact invmaps_remove _ _ _ h

theorem inv_apply_batch (trig : Nat → ℚ × ℚ) (now : ℚ) (st : Tracker)
    (batch : List (String × AircraftData)) (h : TrackerInv st) :
    TrackerInv (Tracker.apply_batch trig now st batch) := by
  unfold Tracker.apply_batch
  exact inv_remove_untracked _ _ (inv_foldl_process trig now batch _ h)

theorem inv_step (trig : Nat → ℚ × ℚ) (st : Tracker) (e : TEvent) (h : TrackerInv st) :
    TrackerInv (Tracker.step trig st e) := by
  cases e with
  | poll fetched now =>
    show TrackerInv (Tracker.update_aircraft trig now st fetched)
    unfold Tracker.update_aircraft
    split_ifs with hb
    · exact h
    · cases hl : st.buffer ++ [fetched] with
      | nil => exact h
      | cons b rest =>
        simp only [hl]
        exact inv_apply_batch trig now _ b h
  | fpOk r => exact inv_update_flightplan st r.id r.fp h
  | fpErr e => exact h
  | bufferOn => exact h
  | bufferOff => exact h

theorem inv_run (trig : Nat → ℚ × ℚ) (evs : List TEvent) :
    ∀ st : Tracker, TrackerInv st → TrackerInv (Tracker.run trig st evs) := by
  induction evs with
  | nil => intro st h; simpa [Tracker.run] using h
  | cons e tl ih =>
    intro st h
    simpa [Tracker.run] using ih _ (inv_step trig st e h)

theorem inv_init (fl ce : Int) : TrackerInv (Tracker.init fl ce) := invmaps_nil

-- ===== Evolution of a single track across operations =====

/-- How a live track may change while it stays tracked: identity and stored
snapshot are frozen, the provider timestamp never decreases, the flight-plan
attempt flag never falls back to false, and an attached plan never unsets. -/
def TrackData.Evolves (d d' : TrackData) : Prop :=
  d.id = d'.id ∧ d.ac_data = d'.ac_data ∧
  d.last_position_update ≤ d'.last_position_update ∧
  (d.fp_did_try_update = true → d'.fp_did_try_update = true) ∧
  (d.fp.isSome = true → d'.fp.isSome = true)

theorem evolves_refl (d : TrackData) : d.Evolves d :=
  ⟨rfl, rfl, le_refl _, fun h => h, fun h => h⟩

theorem evolves_trans {a b c : TrackData} (h1 : a.Evolves b) (h2 : b.Evolves c) :
    a.Evolves c :=
  ⟨h1.1.trans h2.1, h1.2.1.trans h2.2.1, h1.2.2.1.trans h2.2.2.1,
   fun h => h2.2.2.2.1 (h1.2.2.2.1 h), fun h => h2.2.2.2.2 (h1.2.2.2.2 h)⟩

theorem evolve_try_update (st : Tracker) (id h : String) (d : TrackData)
    (hd : mlookup st.tracking h = some d) :
    ∃ d', mlookup (Tracker.try_update_flightplan st id).tracking h = some d'
      ∧ d.Evolves d' := by
  unfold Tracker.try_update_flightplan
  cases hm : mlookup st.tracking id with
  | none => exact ⟨d, hd, evolves_refl d⟩
  | some d0 =>
    dsimp only
    split_ifs with h1 h2
    · exact ⟨d, hd, evolves_refl d⟩
    · by_cases hih : id = h
      · subst hih
        rw [hm] at hd
        have hdd : d0 = d := Option.some.inj hd
        subst hdd
        refine ⟨{ d0 with fp_did_try_update := true }, ?_, ?_⟩
        · show mlookup (minsert st.tracking id _) id = _
          rw [mlookup_minsert, if_pos rfl]
        · exact ⟨rfl, rfl, le_refl _, fun _ => rfl, fun hh => hh⟩
      · refine ⟨d, ?_, evolves_refl d⟩
        show mlookup (minsert st.tracking id _) h = some d
        rw [mlookup_minsert, if_neg hih]
        exact hd
    · by_cases hih : id = h
      · subst hih
        rw [hm] at hd
        have hdd : d0 = d := Option.some.inj hd
        subst hdd
        refine ⟨{ d0 with fp_did_try_update := true }, ?_, ?_⟩
        · show mlookup (minsert st.tracking id _) id = _
          rw [mlookup_minsert, if_pos rfl]
        · exact ⟨rfl, rfl, le_refl _, fun _ => rfl, fun hh => hh⟩
      · refine ⟨d, ?_, evolves_refl d⟩
        show mlookup (minsert st.tracking id _) h = some d
        rw [mlookup_minsert, if_neg hih]
        exact hd

theorem evolve_update_position (trig : Nat → ℚ × ℚ) (now : ℚ) (st : Tracker)
    (id h : String) (a : AircraftData) (d : TrackData)
    (hd : mlookup st.tracking h = some d) :
    ∃ d', mlookup (Tracker.update_position trig now st id a).tracking h = some d'
      ∧ d.Evolves d' := by
  unfold Tracker.update_position
  cases hm : mlookup st.tracking id with
  | none => exact ⟨d, hd, evolves_refl d⟩
  | some d0 =>
    dsimp only
    split_ifs with h1
    · exact ⟨d, hd, evolves_refl d⟩
    · by_cases hih : id = h
      · subst hih
        rw [hm] at hd
        have hdd : d0 = d := Option.some.inj hd
        subst hdd
        refine ⟨{ d0 with
            position := InterpolatePosition.new trig a.latitude a.longitude
              a.heading a.ground_speed now
            last_position_update := a.timestamp
            at_last_position_update := now }, ?_, ?_⟩
        · show mlookup (minsert st.tracking id _) id = _
          rw [mlookup_minsert, if_pos rfl]
        · exact ⟨rfl, rfl, le_of_lt (lt_of_not_le h1), fun hh => hh, fun hh => hh⟩
      · refine ⟨d, ?_, evolves_refl d⟩
        show mlookup (minsert st.tracking id _) h = some d
        rw [mlookup_minsert, if_neg hih]
        exact hd

theorem evolve_update_flightplan (st : Tracker) (id h : String) (fp : FlightPlan)
    (d : TrackData) (hd : mlookup st.tracking h = some d) :
    ∃ d', mlookup (Tracker.update_flightplan st id fp).tracking h = some d'
      ∧ d.Evolves d' := by
  unfold Tracker.update_flightplan
  cases hm : mlookup st.tracking id with
  | none => exact ⟨d, hd, evolves_refl d⟩
  | some d0 =>
    dsimp only
    by_cases hih : id = h
    · subst hih
      rw [hm] at hd
      have hdd : d0 = d := Option.some.inj hd
      subst hdd
      refine ⟨{ d0 with fp := some fp }, ?_, ?_⟩
      · show mlookup (minsert st.tracking id _) id = _
        rw [mlookup_minsert, if_pos rfl]
      · exact ⟨rfl, rfl, le_refl _, fun hh => hh, fun _ => rfl⟩
    · refine ⟨d, ?_, evolves_refl d⟩
      show mlookup (minsert st.tracking id _) h = some d
      rw [mlookup_minsert, if_neg hih]
      exact hd

theorem evolve_check_and_create (st : Tracker) (id h : String) (a : AircraftData)
    (now : ℚ) (d : TrackData) (hd : mlookup st.tracking h = some d) :
    ∃ d', mlookup (Tracker.check_and_create st id a now).1.tracking h = some d'
      ∧ d.Evolves d' := by
  unfold Tracker.check_and_create
  split_ifs with h1 h2 h3
  · exact ⟨d, hd, evolves_refl d⟩
  · exact ⟨d, hd, evolves_refl d⟩
  · exact ⟨d, hd, evolves_refl d⟩
  · refine ⟨d, ?_, evolves_refl d⟩
    show mlookup (minsert st.tracking id _) h = some d
    have hih : ¬id = h := by
      intro hh
      subst hh
      rw [hd] at h1
      exact h1 rfl
    rw [mlookup_minsert, if_neg hih]
    exact hd

theorem evolve_process_one (trig : Nat → ℚ × ℚ) (now : ℚ)
    (acc : Tracker × List String) (p : String × AircraftData) (h : String)
    (d : TrackData) (hd : mlookup acc.1.tracking h = some d) :
    ∃ d', mlookup (Tracker.process_one trig now acc p).1.tracking h = some d'
      ∧ d.Evolves d' := by
  unfold Tracker.process_one
  split_ifs with h1 h2 h3 h4
  · exact ⟨d, hd, evolves_refl d⟩
  · exact ⟨d, hd, evolves_refl d⟩
  · exact ⟨d, hd, evolves_refl d⟩
  · exact evolve_check_and_create acc.1 p.1 h p.2 now d hd
  · obtain ⟨d1, hd1, he1⟩ := evolve_check_and_create acc.1 p.1 h p.2 now d hd
    obtain ⟨d2, hd2, he2⟩ :=
      evolve_update_position trig now (Tracker.check_and_create acc.1 p.1 p.2 now).1 p.1 h p.2 d1 hd1
    obtain ⟨d3, hd3, he3⟩ := evolve_try_update _ p.1 h d2 hd2
    exact ⟨d3, hd3, evolves_trans he1 (evolves_trans he2 he3)⟩

theorem evolve_foldl (trig : Nat → ℚ × ℚ) (now : ℚ)
    (batch : List (String × AircraftData)) :
    ∀ (acc : Tracker × List String) (h : String) (d : TrackData),
      mlookup acc.1.tracking h = some d →
      ∃ d', mlookup (batch.foldl (Tracker.process_one trig now) acc).1.tracking h = some d'
        ∧ d.Evolves d' := by
  induction batch with
  | nil => intro acc h d hd; exact ⟨d, hd, evolves_refl d⟩
  | cons p tl ih =>
    intro acc h d hd
    obtain ⟨d1, hd1, he1⟩ := evolve_process_one trig now acc p h d hd
    obtain ⟨d2, hd2, he2⟩ := ih (Tracker.process_one trig now acc p) h d1 hd1
    exact ⟨d2, by simpa using hd2, evolves_trans he1 he2⟩

theorem evolve_step (trig : Nat → ℚ × ℚ) (st : Tracker) (e : TEvent) (h : String)
    (d d' : TrackData) (hd : mlookup st.tracking h = some d)
    (hd' : mlookup (Tracker.step trig st e).tracking h = some d') :
    d.Evolves d' := by
  cases e with
  | poll fetched now =>
    revert hd'
    show mlookup (Tracker.update_aircraft trig now st fetched).tracking h = some d' → _
    unfold Tracker.update_aircraft
    split_ifs with hb
    · intro hd'
      rw [hd] at hd'
      have : d = d' := Option.some.inj hd'
      subst this
      exact evolves_refl d
    · cases hl : st.buffer ++ [fetched] with
      | nil =>
        intro hd'
        rw [hd] at hd'
        have : d = d' := Option.some.inj hd'
        subst this
        exact evolves_refl d
      | cons b rest =>
        simp only [hl]
        unfold Tracker.apply_batch Tracker.remove_untracked
        intro hd'
        dsimp only at hd'
        rw [mlookup_filter] at hd'
        by_cases hk : elem_s (b.foldl (Tracker.process_one trig now)
            ({ st with buffer := rest }, [])).2 h = true
        · rw [if_pos hk] at hd'
          obtain ⟨d2, hd2, he2⟩ := evolve_foldl trig now b ({ st with buffer := rest }, []) h d hd
          rw [hd2] at hd'
          have : d2 = d' := Option.some.inj hd'
          subst this
          exact he2
        · rw [if_neg hk] at hd'
          cases hd'
  | fpOk r =>
    unfold Tracker.step at hd'
    obtain ⟨d2, hd2, he2⟩ := evolve_update_flightplan st r.id h r.fp d hd
    rw [hd2] at hd'
    have : d2 = d' := Option.some.inj hd'
    subst this
    exact he2
  | fpErr e =>
    unfold Tracker.step at hd'
    rw [hd] at hd'
    have : d = d' := Option.some.inj hd'
    subst this
    exact evolves_refl d
  | bufferOn =>
    unfold Tracker.step at hd'
    rw [hd] at hd'
    have : d = d' := Option.some.inj hd'
    subst this
    exact evolves_refl d
  | bufferOff =>
    unfold Tracker.step at hd'
    rw [hd] at hd'
    have : d = d' := Option.some.inj hd'
    subst this
    exact evolves_refl d

-- ===== Structural stability of the tracker operations =====

theorem stable_check_and_create (st : Tracker) (id : String) (a : AircraftData) (now : ℚ) :
    (Tracker.check_and_create st id a now).1.buffer = st.buffer ∧
    (Tracker.check_and_create st id a now).1.is_buffering = st.is_buffering ∧
    (Tracker.check_and_create st id a now).1.floor = st.floor ∧
    (Tracker.check_and_create st id a now).1.ceiling = st.ceiling ∧
    (Tracker.check_and_create st id a now).1.fp_jobs = st.fp_jobs := by
  unfold Tracker.check_and_create
  split_ifs <;> exact ⟨rfl, rfl, rfl, rfl, rfl⟩

theorem stable_update_position (trig : Nat → ℚ × ℚ) (now : ℚ) (st : Tracker)
    (id : String) (a : AircraftData) :
    (Tracker.update_position trig now st id a).buffer = st.buffer ∧
    (Tracker.update_position trig now st id a).is_buffering = st.is_buffering ∧
    (Tracker.update_position trig now st id a).floor = st.floor ∧
    (Tracker.update_position trig now st id a).ceiling = st.ceiling ∧
    (Tracker.update_position trig now st id a).fp_jobs = st.fp_jobs := by
  unfold Tracker.update_position
  cases hm : mlookup st.tracking id with
  | none => exact ⟨rfl, rfl, rfl, rfl, rfl⟩
  | some d =>
    dsimp only
    split_ifs <;> exact ⟨rfl, rfl, rfl, rfl, rfl⟩

theorem stable_try_update (st : Tracker) (id : String) :
    (Tracker.try_update_flightplan st id).buffer = st.buffer ∧
    (Tracker.try_update_flightplan st id).is_buffering = st.is_buffering ∧
    (Tracker.try_update_flightplan st id).floor = st.floor ∧
    (Tracker.try_update_flightplan st id).ceiling = st.ceiling := by
  unfold Tracker.try_update_flightplan
  cases hm : mlookup st.tracking id with
  | none => exact ⟨rfl, rfl, rfl, rfl⟩
  | some d =>
    dsimp only
    split_ifs <;> exact ⟨rfl, rfl, rfl, rfl⟩

theorem stable_update_flightplan (st : Tracker) (id : String) (fp : FlightPlan) :
    (Tracker.update_flightplan st id fp).buffer = st.buffer ∧
    (Tracker.update_flightplan st id fp).is_buffering = st.is_buffering ∧
    (Tracker.update_flightplan st id fp).floor = st.floor ∧
    (Tracker.update_flightplan st id fp).ceiling = st.ceiling ∧
    (Tracker.update_flightplan st id fp).fp_jobs = st.fp_jobs := by
  unfold Tracker.update_flightplan
  cases hm : mlookup st.tracking id with
  | none => exact ⟨rfl, rfl, rfl, rfl, rfl⟩
  | some d => exact ⟨rfl, rfl, rfl, rfl, rfl⟩

theorem stable_process_one (trig : Nat → ℚ × ℚ) (now : ℚ)
    (acc : Tracker × List String) (p : String × AircraftData) :
    (Tracker.process_one trig now acc p).1.buffer = acc.1.buffer ∧
    (Tracker.process_one trig now acc p).1.is_buffering = acc.1.is_buffering ∧
    (Tracker.process_one trig now acc p).1.floor = acc.1.floor ∧
    (Tracker.process_one trig now acc p).1.ceiling = acc.1.ceiling := by
  unfold Tracker.process_one
  split_ifs with h1 h2 h3 h4
  · exact ⟨rfl, rfl, rfl, rfl⟩
  · exact ⟨rfl, rfl, rfl, rfl⟩
  · exact ⟨rfl, rfl, rfl, rfl⟩
  · obtain ⟨hb, hi, hf, hc, _⟩ := stable_check_and_create acc.1 p.1 p.2 now
    exact ⟨hb, hi, hf, hc⟩
  · obtain ⟨hb1, hi1, hf1, hc1, _⟩ := stable_check_and_create acc.1 p.1 p.2 now
    obtain ⟨hb2, hi2, hf2, hc2, _⟩ :=
      stable_update_position trig now (Tracker.check_and_create acc.1 p.1 p.2 now).1 p.1 p.2
    obtain ⟨hb3, hi3, hf3, hc3⟩ :=
      stable_try_update
        (Tracker.update_position trig now (Tracker.check_and_create acc.1 p.1 p.2 now).1 p.1 p.2)
        p.1
    exact ⟨hb3.trans (hb2.trans hb1), hi3.trans (hi2.trans hi1),
           hf3.trans (hf2.trans hf1), hc3.trans (hc2.trans hc1)⟩

theorem stable_foldl (trig : Nat → ℚ × ℚ) (now : ℚ)
    (batch : List (String × AircraftData)) :
    ∀ acc : Tracker × List String,
      (batch.foldl (Tracker.process_one trig now) acc).1.buffer = acc.1.buffer ∧
      (batch.foldl (Tracker.process_one trig now) acc).1.is_buffering = acc.1.is_buffering ∧
      (batch.foldl (Tracker.process_one trig now) acc).1.floor = acc.1.floor ∧
      (batch.foldl (Tracker.process_one trig now) acc).1.ceiling = acc.1.ceiling := by
  induction batch with
  | nil => intro acc; exact ⟨rfl, rfl, rfl, rfl⟩
  | cons p tl ih =>
    intro acc
    obtain ⟨hb1, hi1, hf1, hc1⟩ := stable_process_one trig now acc p
    obtain ⟨hb2, hi2, hf2, hc2⟩ := ih (Tracker.process_one trig now acc p)
    refine ⟨?_, ?_, ?_, ?_⟩ <;> simp only [List.foldl_cons]
    · exact hb2.trans hb1
    · exact hi2.trans hi1
    · exact hf2.trans hf1
    · exact hc2.trans hc1

theorem stable_apply_batch (trig : Nat → ℚ × ℚ) (now : ℚ) (st : Tracker)
    (batch : List (String × AircraftData)) :
    (Tracker.apply_batch trig now st batch).buffer = st.buffer ∧
    (Tracker.apply_batch trig now st batch).is_buffering = st.is_buffering ∧
    (Tracker.apply_batch trig now st batch).floor = st.floor ∧
    (Tracker.apply_batch trig now st batch).ceiling = st.ceiling := by
  unfold Tracker.apply_batch Tracker.remove_untracked
  exact stable_foldl trig now batch (st, [])

-- ===== Branch equations for process_one =====

theorem process_one_skip1 (trig : Nat → ℚ × ℚ) (now : ℚ) (acc : Tracker × List String)
    (p : String × AircraftData) (h : elem_s acc.2 p.1 = true) :
    Tracker.process_one trig now acc p = acc := by
  unfold Tracker.process_one
  rw [if_pos h]

theorem process_one_skip2 (trig : Nat → ℚ × ℚ) (now : ℚ) (acc : Tracker × List String)
    (p : String × AircraftData) (h1 : ¬elem_s acc.2 p.1 = true)
    (h2 : trim_empty p.2.callsign = true) :
    Tracker.process_one trig now acc p = acc := by
  unfold Tracker.process_one
  rw [if_neg h1, if_pos h2]

theorem process_one_skip3 (trig : Nat → ℚ × ℚ) (now : ℚ) (acc : Tracker × List String)
    (p : String × AircraftData) (h1 : ¬elem_s acc.2 p.1 = true)
    (h2 : ¬trim_empty p.2.callsign = true)
    (h3 : p.2.altitude < acc.1.floor ∨ p.2.altitude > acc.1.ceiling) :
    Tracker.process_one trig now acc p = acc := by
  unfold Tracker.process_one
  rw [if_neg h1, if_neg h2, if_pos h3]

theorem process_one_created (trig : Nat → ℚ × ℚ) (now : ℚ) (acc : Tracker × List String)
    (p : String × AircraftData) (h1 : ¬elem_s acc.2 p.1 = true)
    (h2 : ¬trim_empty p.2.callsign = true)
    (h3 : ¬(p.2.altitude < acc.1.floor ∨ p.2.altitude > acc.1.ceiling))
    (h4 : (Tracker.check_and_create acc.1 p.1 p.2 now).2 = true) :
    Tracker.process_one trig now acc p
      = ((Tracker.check_and_create acc.1 p.1 p.2 now).1, acc.2 ++ [p.1]) := by
  unfold Tracker.process_one
  rw [if_neg h1, if_neg h2, if_neg h3, if_pos h4]

theorem process_one_updated (trig : Nat → ℚ × ℚ) (now : ℚ) (acc : Tracker × List String)
    (p : String × AircraftData) (h1 : ¬elem_s acc.2 p.1 = true)
    (h2 : ¬trim_empty p.2.callsign = true)
    (h3 : ¬(p.2.altitude < acc.1.floor ∨ p.2.altitude > acc.1.ceiling))
    (h4 : ¬(Tracker.check_and_create acc.1 p.1 p.2 now).2 = true) :
    Tracker.process_one trig now acc p
      = (Tracker.try_update_flightplan
           (Tracker.update_position trig now (Tracker.check_and_create acc.1 p.1 p.2 now).1
             p.1 p.2) p.1,
         acc.2 ++ [p.1]) := by
  unfold Tracker.process_one
  rw [if_neg h1, if_neg h2, if_neg h3, if_neg h4]

-- ===== Which ids end up in the processed set of a batch =====

theorem processed_mem (trig : Nat → ℚ × ℚ) (now : ℚ)
    (batch : List (String × AircraftData)) :
    ∀ (acc : Tracker × List String) (id : String) (fl ce : Int),
      acc.1.floor = fl → acc.1.ceiling = ce →
      (id ∈ (batch.foldl (Tracker.process_one trig now) acc).2 ↔
        (id ∈ acc.2 ∨ ∃ a, (id, a) ∈ batch ∧ trim_empty a.callsign = false ∧
          fl ≤ a.altitude ∧ a.altitude ≤ ce)) := by
  induction batch with
  | nil =>
    intro acc id fl ce hf hc
    simp
  | cons p tl ih =>
    intro acc id fl ce hf hc
    obtain ⟨i, a0⟩ := p
    simp only [List.foldl_cons]
    by_cases h1 : elem_s acc.2 (i, a0).1 = true
    · rw [process_one_skip1 trig now acc (i, a0) h1, ih acc id fl ce hf hc]
      constructor
      · rintro (hL | ⟨a, ha, hp⟩)
        · exact Or.inl hL
        · exact Or.inr ⟨a, List.mem_cons_of_mem _ ha, hp⟩
      · rintro (hL | ⟨a, ha, hp⟩)
        · exact Or.inl hL
        · rcases List.mem_cons.mp ha with hh | hh
          · rw [Prod.mk.injEq] at hh
            exact Or.inl (hh.1 ▸ (elem_s_iff acc.2 i).mp h1)
          · exact Or.inr ⟨a, hh, hp⟩
    · by_cases h2 : trim_empty (i, a0).2.callsign = true
      · rw [process_one_skip2 trig now acc (i, a0) h1 h2, ih acc id fl ce hf hc]
        constructor
        · rintro (hL | ⟨a, ha, hp⟩)
          · exact Or.inl hL
          · exact Or.inr ⟨a, List.mem_cons_of_mem _ ha, hp⟩
        · rintro (hL | ⟨a, ha, hp⟩)
          · exact Or.inl hL
          · rcases List.mem_cons.mp ha with hh | hh
            · rw [Prod.mk.injEq] at hh
              exfalso
              rw [hh.2] at hp
              rw [h2] at hp
              exact absurd hp.1 (by simp)
            · exact Or.inr ⟨a, hh, hp⟩
      · by_cases h3 : (i, a0).2.altitude < acc.1.floor ∨ (i, a0).2.altitude > acc.1.ceiling
        · rw [process_one_skip3 trig now acc (i, a0) h1 h2 h3, ih acc id fl ce hf hc]
          rw [hf, hc] at h3
          constructor
          · rintro (hL | ⟨a, ha, hp⟩)
            · exact Or.inl hL
            · exact Or.inr ⟨a, List.mem_cons_of_mem _ ha, hp⟩
          · rintro (hL | ⟨a, ha, hp⟩)
            · exact Or.inl hL
            · rcases List.mem_cons.mp ha with hh | hh
              · rw [Prod.mk.injEq] at hh
                exfalso
                rw [hh.2] at hp
                rcases h3 with hlt | hgt
                · exact absurd hp.2.1 (not_le.mpr hlt)
                · exact absurd hp.2.2 (not_le.mpr hgt)
              · exact Or.inr ⟨a, hh, hp⟩
        · have hpass : trim_empty a0.callsign = false ∧ fl ≤ a0.altitude ∧ a0.altitude ≤ ce := by
            rw [hf, hc] at h3
            refine ⟨by simpa using h2, ?_, ?_⟩
            · exact not_lt.mp (not_or.mp h3).1
            · exact not_lt.mp (not_or.mp h3).2
          have hmain : ∀ st2 : Tracker, st2.floor = fl → st2.ceiling = ce →
              (id ∈ (tl.foldl (Tracker.process_one trig now) (st2, acc.2 ++ [i])).2 ↔
                (id ∈ acc.2 ∨ ∃ a, (id, a) ∈ (i, a0) :: tl ∧ trim_empty a.callsign = false ∧
                  fl ≤ a.altitude ∧ a.altitude ≤ ce)) := by
            intro st2 hf2 hc2
            rw [ih (st2, acc.2 ++ [i]) id fl ce hf2 hc2]
            constructor
            · rintro (hL | ⟨a, ha, hp⟩)
              · rcases List.mem_append.mp hL with hh | hh
                · exact Or.inl hh
                · have hid : id = i := by simpa using hh
                  exact Or.inr ⟨a0, by rw [hid]; exact List.mem_cons_self _ _, hpass⟩
              · exact Or.inr ⟨a, List.mem_cons_of_mem _ ha, hp⟩
            · rintro (hL | ⟨a, ha, hp⟩)
              · exact Or.inl (List.mem_append.mpr (Or.inl hL))
              · rcases List.mem_cons.mp ha with hh | hh
                · rw [Prod.mk.injEq] at hh
                  exact Or.inl (List.mem_append.mpr (Or.inr (by simp [hh.1])))
                · exact Or.inr ⟨a, hh, hp⟩
          by_cases h4 : (Tracker.check_and_create acc.1 (i, a0).1 (i, a0).2 now).2 = true
          · rw [process_one_created trig now acc (i, a0) h1 h2 h3 h4]
            exact hmain _
              (by rw [(stable_check_and_create acc.1 i a0 now).2.2.1]; exact hf)
              (by rw [(stable_check_and_create acc.1 i a0 now).2.2.2.1]; exact hc)
          · rw [process_one_updated trig now acc (i, a0) h1 h2 h3 h4]
            exact hmain _
              (by
                rw [(stable_try_update _ i).2.2.1,
                    (stable_update_position trig now _ i a0).2.2.1,
                    (stable_check_and_create acc.1 i a0 now).2.2.1]
                exact hf)
              (by
                rw [(stable_try_update _ i).2.2.2,
                    (stable_update_position trig now _ i a0).2.2.2.1,
                    (stable_check_and_create acc.1 i a0 now).2.2.2.1]
                exact hc)

-- ===== Effect of an applied batch on a pre-existing track =====

theorem apply_batch_effect (trig : Nat → ℚ × ℚ) (now : ℚ) (st : Tracker)
    (batch : List (String × AircraftData)) (h : String) (d : TrackData)
    (hd : mlookup st.tracking h = some d) :
    ((∃ a, (h, a) ∈ batch ∧ trim_empty a.callsign = false ∧
        st.floor ≤ a.altitude ∧ a.altitude ≤ st.ceiling) →
      ∃ d', mlookup (Tracker.apply_batch trig now st batch).tracking h = some d'
        ∧ d.Evolves d') ∧
    (¬(∃ a, (h, a) ∈ batch ∧ trim_empty a.callsign = false ∧
        st.floor ≤ a.altitude ∧ a.altitude ≤ st.ceiling) →
      mlookup (Tracker.apply_batch trig now st batch).tracking h = none ∧
      mlookup (Tracker.apply_batch trig now st batch).callsign_map d.ac_data.callsign
        = none) := by
  have hproc : ∀ id, id ∈ (batch.foldl (Tracker.process_one trig now) (st, [])).2 ↔
      ∃ a, (id, a) ∈ batch ∧ trim_empty a.callsign = false ∧
        st.floor ≤ a.altitude ∧ a.altitude ≤ st.ceiling := by
    intro id
    rw [processed_mem trig now batch (st, []) id st.floor st.ceiling rfl rfl]
    simp
  unfold Tracker.apply_batch Tracker.remove_untracked
  constructor
  · intro hex
    have hel : elem_s (batch.foldl (Tracker.process_one trig now) (st, [])).2 h = true :=
      (elem_s_iff _ _).mpr ((hproc h).mpr hex)
    obtain ⟨d', hd', he'⟩ := evolve_foldl trig now batch (st, []) h d hd
    refine ⟨d', ?_, he'⟩
    show mlookup (List.filter _ _) h = some d'
    rw [mlookup_filter (fun k => elem_s (batch.foldl (Tracker.process_one trig now) (st, [])).2 k), if_pos hel]
    exact hd'
  · intro hnex
    have hel : ¬elem_s (batch.foldl (Tracker.process_one trig now) (st, [])).2 h = true :=
      fun hh => hnex ((hproc h).mp ((elem_s_iff _ _).mp hh))
    obtain ⟨d', hd', he'⟩ := evolve_foldl trig now batch (st, []) h d hd
    constructor
    · show mlookup (List.filter _ _) h = none
      rw [mlookup_filter (fun k => elem_s (batch.foldl (Tracker.process_one trig now) (st, [])).2 k), if_neg hel]
    · show mlookup (List.foldl _ _ _) _ = none
      rw [mlookup_foldl_mremove]
      rw [if_pos ?_]
      refine List.mem_filterMap.mpr ⟨(h, d'), mem_of_mlookup _ _ _ hd', ?_⟩
      rw [if_neg hel]
      rw [← he'.2.1]

-- ===== Buffering and FIFO accounting =====

theorem update_aircraft_buffering (trig : Nat → ℚ × ℚ) (now : ℚ) (st : Tracker)
    (fetched : List (String × AircraftData)) (hb : st.is_buffering = true) :
    Tracker.update_aircraft trig now st fetched
      = { st with buffer := st.buffer ++ [fetched] } := by
  unfold Tracker.update_aircraft
  rw [if_pos hb]

theorem update_aircraft_applies (trig : Nat → ℚ × ℚ) (now : ℚ) (st : Tracker)
    (fetched b : List (String × AircraftData)) (rest : List (List (String × AircraftData)))
    (hb : st.is_buffering = false) (hl : st.buffer ++ [fetched] = b :: rest) :
    Tracker.update_aircraft trig now st fetched
      = Tracker.apply_batch trig now { st with buffer := rest } b := by
  unfold Tracker.update_aircraft
  rw [if_neg (by simp [hb])]
  simp only [hl]

theorem run_nil (trig : Nat → ℚ × ℚ) (st : Tracker) : Tracker.run trig st [] = st := rfl

theorem run_cons (trig : Nat → ℚ × ℚ) (st : Tracker) (e : TEvent) (tl : List TEvent) :
    Tracker.run trig st (e :: tl) = Tracker.run trig (Tracker.step trig st e) tl := rfl

theorem applied_list_cons (trig : Nat → ℚ × ℚ) (st : Tracker) (e : TEvent)
    (tl : List TEvent) :
    Tracker.applied_list trig st (e :: tl)
      = (Tracker.applied_now st e).toList
        ++ Tracker.applied_list trig (Tracker.step trig st e) tl := rfl

theorem fifo_run (trig : Nat → ℚ × ℚ) (evs : List TEvent) :
    ∀ st : Tracker,
      Tracker.applied_list trig st evs ++ (Tracker.run trig st evs).buffer
        = st.buffer ++ polled_list evs := by
  induction evs with
  | nil =>
    intro st
    simp [Tracker.applied_list, run_nil, polled_list]
  | cons e tl ih =>
    intro st
    rw [applied_list_cons, run_cons]
    cases e with
    | poll f now =>
      have hpolled : polled_list (TEvent.poll f now :: tl) = f :: polled_list tl := rfl
      rw [hpolled]
      by_cases hb : st.is_buffering = true
      · have happ : Tracker.applied_now st (TEvent.poll f now) = none := by
          unfold Tracker.applied_now
          dsimp only
          rw [if_pos hb]
        have hstep : Tracker.step trig st (TEvent.poll f now)
            = { st with buffer := st.buffer ++ [f] } :=
          update_aircraft_buffering trig now st f hb
        rw [happ, hstep]
        simp only [Option.toList, List.nil_append]
        rw [ih]
        simp
      · have hb' : st.is_buffering = false := Bool.eq_false_iff.mpr hb
        cases hl : st.buffer ++ [f] with
        | nil => exact absurd hl (by simp)
        | cons b rest =>
          have happ : Tracker.applied_now st (TEvent.poll f now) = some b := by
            unfold Tracker.applied_now
            dsimp only
            rw [if_neg hb, hl]
            rfl
          have hstep : Tracker.step trig st (TEvent.poll f now)
              = Tracker.apply_batch trig now { st with buffer := rest } b :=
            update_aircraft_applies trig now st f b rest hb' hl
          have hbuf : (Tracker.apply_batch trig now { st with buffer := rest } b).buffer
              = rest :=
            (stable_apply_batch trig now { st with buffer := rest } b).1
          rw [happ, hstep, List.append_assoc, ih, hbuf]
          have hfin : st.buffer ++ f :: polled_list tl = b :: (rest ++ polled_list tl) := by
            rw [← List.cons_append, ← hl]
            simp
          rw [hfin]
          rfl
    | fpOk r =>
      have happ : Tracker.applied_now st (TEvent.fpOk r) = none := rfl
      have hbuf : (Tracker.step trig st (TEvent.fpOk r)).buffer = st.buffer :=
        (stable_update_flightplan st r.id r.fp).1
      have hpolled : polled_list (TEvent.fpOk r :: tl) = polled_list tl := rfl
      rw [happ, hpolled]
      simp only [Option.toList, List.nil_append]
      rw [ih, hbuf]
    | fpErr e2 =>
      have happ : Tracker.applied_now st (TEvent.fpErr e2) = none := rfl
      have hpolled : polled_list (TEvent.fpErr e2 :: tl) = polled_list tl := rfl
      rw [happ, hpolled]
      simp only [Option.toList, List.nil_append]
      rw [ih]
      rfl
    | bufferOn =>
      have happ : Tracker.applied_now st TEvent.bufferOn = none := rfl
      have hpolled : polled_list (TEvent.bufferOn :: tl) = polled_list tl := rfl
      rw [happ, hpolled]
      simp only [Option.toList, List.nil_append]
      rw [ih]
      rfl
    | bufferOff =>
      have happ : Tracker.applied_now st TEvent.bufferOff = none := rfl
      have hpolled : polled_list (TEvent.bufferOff :: tl) = polled_list tl := rfl
      rw [happ, hpolled]
      simp only [Option.toList, List.nil_append]
      rw [ih]
      rfl

-- ===== Flight-plan job accounting =====

theorem update_position_none (trig : Nat → ℚ × ℚ) (now : ℚ) (st : Tracker)
    (id : String) (a : AircraftData) (hm : mlookup st.tracking id = none) :
    Tracker.update_position trig now st id a = st := by
  unfold Tracker.update_position
  simp only [hm]

theorem try_update_none (st : Tracker) (id : String)
    (hm : mlookup st.tracking id = none) :
    Tracker.try_update_flightplan st id = st := by
  unfold Tracker.try_update_flightplan
  simp only [hm]

theorem update_position_track (trig : Nat → ℚ × ℚ) (now : ℚ) (st : Tracker)
    (id : String) (a : AircraftData) (d : TrackData)
    (hm : mlookup st.tracking id = some d) :
    ∃ d1, mlookup (Tracker.update_position trig now st id a).tracking id = some d1 ∧
      d1.fp = d.fp ∧ d1.fp_did_try_update = d.fp_did_try_update ∧ d1.ac_data = d.ac_data := by
  unfold Tracker.update_position
  simp only [hm]
  split_ifs with h1
  · exact ⟨d, hm, rfl, rfl, rfl⟩
  · refine ⟨{ d with
        position := InterpolatePosition.new trig a.latitude a.longitude
          a.heading a.ground_speed now
        last_position_update := a.timestamp
        at_last_position_update := now }, ?_, rfl, rfl, rfl⟩
    show mlookup (minsert st.tracking id _) id = _
    rw [mlookup_minsert, if_pos rfl]

theorem try_update_effect (st : Tracker) (id : String) (d : TrackData)
    (hm : mlookup st.tracking id = some d) (hfp : d.fp = none)
    (hflag : d.fp_did_try_update = false) :
    (∃ d', mlookup (Tracker.try_update_flightplan st id).tracking id = some d'
        ∧ d'.fp_did_try_update = true) ∧
    (Tracker.try_update_flightplan st id).fp_jobs
      = st.fp_jobs ++ (if d.ac_data.is_airline then [(id, d.ac_data.callsign)] else []) := by
  unfold Tracker.try_update_flightplan
  simp only [hm]
  have hcnd : (d.fp.isSome || d.fp_did_try_update) = false := by
    rw [hfp, hflag]
    rfl
  rw [if_neg (by simp [hcnd])]
  split_ifs with ha
  · constructor
    · refine ⟨{ d with fp_did_try_update := true }, ?_, rfl⟩
      show mlookup (minsert st.tracking id _) id = _
      rw [mlookup_minsert, if_pos rfl]
    · rfl
  · constructor
    · refine ⟨{ d with fp_did_try_update := true }, ?_, rfl⟩
      show mlookup (minsert st.tracking id _) id = _
      rw [mlookup_minsert, if_pos rfl]
    · simp

theorem check_and_create_created (st : Tracker) (id : String) (a : AircraftData)
    (now : ℚ) (h4 : (Tracker.check_and_create st id a now).2 = true) :
    mlookup (Tracker.check_and_create st id a now).1.tracking id
      = some (TrackData.new id a now) := by
  unfold Tracker.check_and_create at h4 ⊢
  split_ifs at h4 ⊢
  show mlookup (minsert st.tracking id _) id = _
  rw [mlookup_minsert, if_pos rfl]

theorem jobs_try_update_of_flag (st : Tracker) (id h : String) (d : TrackData)
    (hd : mlookup st.tracking h = some d) (hf : d.fp_did_try_update = true) :
    (Tracker.try_update_flightplan st id).fp_jobs.filter (fun q => q.1 = h)
      = st.fp_jobs.filter (fun q => q.1 = h) := by
  unfold Tracker.try_update_flightplan
  cases hm : mlookup st.tracking id with
  | none => rfl
  | some d0 =>
    dsimp only
    split_ifs with h1 h2
    · rfl
    · have hih : ¬id = h := by
        intro hh
        subst hh
        rw [hm] at hd
        have : d0 = d := Option.some.inj hd
        rw [this, hf] at h1
        simp at h1
      show (st.fp_jobs ++ [(id, d0.ac_data.callsign)]).filter (fun q => q.1 = h) = _
      rw [List.filter_append]
      have : ([(id, d0.ac_data.callsign)].filter (fun q => q.1 = h)) = [] := by
        simp [hih]
      rw [this, List.append_nil]
    · rfl

theorem flag_jobs_process_one (trig : Nat → ℚ × ℚ) (now : ℚ)
    (acc : Tracker × List String) (p : String × AircraftData) (h : String)
    (d : TrackData) (hd : mlookup acc.1.tracking h = some d)
    (hf : d.fp_did_try_update = true) :
    (∃ d', mlookup (Tracker.process_one trig now acc p).1.tracking h = some d'
        ∧ d'.fp_did_try_update = true) ∧
    (Tracker.process_one trig now acc p).1.fp_jobs.filter (fun q => q.1 = h)
      = acc.1.fp_jobs.filter (fun q => q.1 = h) := by
  by_cases h1 : elem_s acc.2 p.1 = true
  · rw [process_one_skip1 trig now acc p h1]
    exact ⟨⟨d, hd, hf⟩, rfl⟩
  · by_cases h2 : trim_empty p.2.callsign = true
    · rw [process_one_skip2 trig now acc p h1 h2]
      exact ⟨⟨d, hd, hf⟩, rfl⟩
    · by_cases h3 : p.2.altitude < acc.1.floor ∨ p.2.altitude > acc.1.ceiling
      · rw [process_one_skip3 trig now acc p h1 h2 h3]
        exact ⟨⟨d, hd, hf⟩, rfl⟩
      · by_cases h4 : (Tracker.check_and_create acc.1 p.1 p.2 now).2 = true
        · rw [process_one_created trig now acc p h1 h2 h3 h4]
          obtain ⟨d', hd', he'⟩ := evolve_check_and_create acc.1 p.1 h p.2 now d hd
          refine ⟨⟨d', hd', he'.2.2.2.1 hf⟩, ?_⟩
          show (Tracker.check_and_create acc.1 p.1 p.2 now).1.fp_jobs.filter _ = _
          rw [(stable_check_and_create acc.1 p.1 p.2 now).2.2.2.2]
        · rw [process_one_updated trig now acc p h1 h2 h3 h4]
          have hcr : (Tracker.check_and_create acc.1 p.1 p.2 now).1 = acc.1 :=
            check_and_create_not_created acc.1 p.1 p.2 now (Bool.eq_false_iff.mpr h4)
          rw [hcr]
          obtain ⟨d1, hd1, he1⟩ := evolve_update_position trig now acc.1 p.1 h p.2 d hd
          have hf1 : d1.fp_did_try_update = true := he1.2.2.2.1 hf
          obtain ⟨d2, hd2, he2⟩ := evolve_try_update _ p.1 h d1 hd1
          refine ⟨⟨d2, hd2, he2.2.2.2.1 hf1⟩, ?_⟩
          show (Tracker.try_update_flightplan _ p.1).fp_jobs.filter _ = _
          rw [jobs_try_update_of_flag _ p.1 h d1 hd1 hf1,
              (stable_update_position trig now acc.1 p.1 p.2).2.2.2.2]

theorem flag_jobs_foldl (trig : Nat → ℚ × ℚ) (now : ℚ)
    (batch : List (String × AircraftData)) :
    ∀ (acc : Tracker × List String) (h : String) (d : TrackData),
      mlookup acc.1.tracking h = some d → d.fp_did_try_update = true →
      (∃ d', mlookup (batch.foldl (Tracker.process_one trig now) acc).1.tracking h
          = some d' ∧ d'.fp_did_try_update = true) ∧
      (batch.foldl (Tracker.process_one trig now) acc).1.fp_jobs.filter
          (fun q => q.1 = h)
        = acc.1.fp_jobs.filter (fun q => q.1 = h) := by
  induction batch with
  | nil => intro acc h d hd hf; exact ⟨⟨d, hd, hf⟩, rfl⟩
  | cons p tl ih =>
    intro acc h d hd hf
    obtain ⟨⟨d1, hd1, hf1⟩, hj1⟩ := flag_jobs_process_one trig now acc p h d hd hf
    obtain ⟨hex2, hj2⟩ := ih (Tracker.process_one trig now acc p) h d1 hd1 hf1
    exact ⟨by simpa using hex2, by simpa using hj2.trans hj1⟩

theorem flag_jobs_step (trig : Nat → ℚ × ℚ) (st : Tracker) (e : TEvent) (h : String)
    (d : TrackData) (hd : mlookup st.tracking h = some d)
    (hf : d.fp_did_try_update = true) :
    (Tracker.step trig st e).fp_jobs.filter (fun q => q.1 = h)
      = st.fp_jobs.filter (fun q => q.1 = h) := by
  cases e with
  | poll fetched now =>
    show (Tracker.update_aircraft trig now st fetched).fp_jobs.filter _ = _
    unfold Tracker.update_aircraft
    split_ifs with hb
    · rfl
    · cases hl : st.buffer ++ [fetched] with
      | nil => rfl
      | cons b rest =>
        simp only [hl]
        unfold Tracker.apply_batch Tracker.remove_untracked
        exact (flag_jobs_foldl trig now b ({ st with buffer := rest }, []) h d hd hf).2
  | fpOk r =>
    show (Tracker.update_flightplan st r.id r.fp).fp_jobs.filter _ = _
    rw [(stable_update_flightplan st r.id r.fp).2.2.2.2]
  | fpErr e2 => rfl
  | bufferOn => rfl
  | bufferOff => rfl

-- ===== Exact update equations =====

theorem update_position_newer (trig : Nat → ℚ × ℚ) (now : ℚ) (st : Tracker)
    (id : String) (a : AircraftData) (d : TrackData)
    (hm : mlookup st.tracking id = some d)
    (hts : d.last_position_update < a.timestamp) :
    Tracker.update_position trig now st id a
      = { st with tracking := minsert st.tracking id ({ d with
              position := InterpolatePosition.new trig a.latitude a.longitude
                a.heading a.ground_speed now
              last_position_update := a.timestamp
              at_last_position_update := now }) } := by
  unfold Tracker.update_position
  simp only [hm]
  rw [if_neg (not_le.mpr hts)]

theorem update_position_stale (trig : Nat → ℚ × ℚ) (now : ℚ) (st : Tracker)
    (id : String) (a : AircraftData) (d : TrackData)
    (hm : mlookup st.tracking id = some d)
    (hts : a.timestamp ≤ d.last_position_update) :
    Tracker.update_position trig now st id a = st := by
  unfold Tracker.update_position
  simp only [hm]
  rw [if_pos hts]

theorem update_flightplan_none (st : Tracker) (id : String) (fp : FlightPlan)
    (hm : mlookup st.tracking id = none) :
    Tracker.update_flightplan st id fp = st := by
  unfold Tracker.update_flightplan
  simp only [hm]

theorem update_flightplan_some (st : Tracker) (id : String) (fp : FlightPlan)
    (d : TrackData) (hm : mlookup st.tracking id = some d) :
    Tracker.update_flightplan st id fp
      = { st with tracking := minsert st.tracking id { d with fp := some fp } } := by
  unfold Tracker.update_flightplan
  simp only [hm]

theorem check_and_create_created_iff (st : Tracker) (id : String) (a : AircraftData)
    (now : ℚ) :
    (Tracker.check_and_create st id a now).2 = true ↔
      (mlookup st.tracking id = none ∧ mlookup st.callsign_map a.callsign = none ∧
        4 < a.callsign.length) := by
  unfold Tracker.check_and_create
  split_ifs with h1 h2 h3
  · constructor
    · intro hf
      simp at hf
    · rintro ⟨hn, _, _⟩
      rw [hn] at h1
      simp at h1
  · constructor
    · intro hf
      simp at hf
    · rintro ⟨_, hn, _⟩
      rw [hn] at h2
      simp at h2
  · constructor
    · intro hf
      simp at hf
    · rintro ⟨_, _, hlen⟩
      exact absurd hlen (not_lt.mpr h3)
  · constructor
    · intro _
      exact ⟨Option.not_isSome_iff_eq_none.mp h1, Option.not_isSome_iff_eq_none.mp h2,
        not_le.mp h3⟩
    · intro _
      rfl

-- ===== Shared concrete states for witnesses and counterexamples =====

/-- The tracker after one applied batch that created the UAL123 track. -/
def st1 : Tracker := Tracker.run trigConst st0 [TEvent.poll [("A1B2C3", acUAL)] 0]

/-- A freshly created track under hex H. -/
def dW : TrackData := TrackData.new "H" acUAL 0

/-- A tracker holding exactly the track `dW` with its callsign indexed. -/
def stW : Tracker :=
  { Tracker.init 0 99999 with
      tracking := minsert [] "H" dW
      callsign_map := minsert [] "UAL123" "H" }

-- ===== C1 =====

/-- C1 (amended): a snapshot whose hex has no track and is not yet processed
in its batch creates a track if and only if its trimmed callsign is
non-empty, its altitude lies within [floor, ceiling], its callsign is not
already mapped to a hex, and the callsign is longer than 4 characters.  The
source has no registration-pattern exception: callsigns of length ≤ 4 are
always rejected (src/tracker.rs lines 90-93). -/
theorem C1_track_creation_admission (trig : Nat → ℚ × ℚ) (now : ℚ) (st : Tracker)
    (pr : List String) (id : String) (a : AircraftData)
    (hpr : ¬elem_s pr id = true) (hm : mlookup st.tracking id = none) :
    (mlookup (Tracker.process_one trig now (st, pr) (id, a)).1.tracking id).isSome = true
      ↔ (trim_empty a.callsign = false ∧ st.floor ≤ a.altitude ∧ a.altitude ≤ st.ceiling ∧
         mlookup st.callsign_map a.callsign = none ∧ 4 < a.callsign.length) := by
  by_cases h2 : trim_empty a.callsign = true
  · rw [process_one_skip2 trig now (st, pr) (id, a) hpr h2]
    dsimp only
    rw [hm]
    simp [h2]
  · by_cases h3 : a.altitude < st.floor ∨ a.altitude > st.ceiling
    · rw [process_one_skip3 trig now (st, pr) (id, a) hpr h2 h3]
      dsimp only
      rw [hm]
      simp only [Option.isSome_none]
      constructor
      · intro hf
        simp at hf
      · rintro ⟨_, hfl, hce, _, _⟩
        rcases h3 with hlt | hgt
        · exact absurd hfl (not_le.mpr hlt)
        · exact absurd hce (not_le.mpr hgt)
    · by_cases h4 : (Tracker.check_and_create st id a now).2 = true
      · rw [process_one_created trig now (st, pr) (id, a) hpr h2 h3 h4]
        dsimp only
        rw [check_and_create_created st id a now h4]
        simp only [Option.isSome_some]
        constructor
        · intro _
          obtain ⟨_, hcm, hlen⟩ := (check_and_create_created_iff st id a now).mp h4
          exact ⟨Bool.eq_false_iff.mpr h2, not_lt.mp (not_or.mp h3).1,
            not_lt.mp (not_or.mp h3).2, hcm, hlen⟩
        · intro _
          trivial
      · rw [process_one_updated trig now (st, pr) (id, a) hpr h2 h3 h4]
        dsimp only
        rw [check_and_create_not_created st id a now (Bool.eq_false_iff.mpr h4),
            update_position_none trig now st id a hm, try_update_none st id hm, hm]
        simp only [Option.isSome_none]
        constructor
        · intro hf
          simp at hf
        · rintro ⟨_, _, _, hcm, hlen⟩
          exact absurd ((check_and_create_created_iff st id a now).mpr ⟨hm, hcm, hlen⟩) h4

/-- C1 counterexample: the callsign "N12" is non-empty after trimming, lies
in the altitude band, is unused, and matches the registration pattern
(`N` followed by digits), so the claim as stated requires a track to be
created; the code drops it because its length is ≤ 4. -/
theorem C1_counterexample :
    trim_empty acN12.callsign = false ∧
    st0.floor ≤ acN12.altitude ∧ acN12.altitude ≤ st0.ceiling ∧
    mlookup st0.callsign_map acN12.callsign = none ∧
    mlookup st0.tracking "A1B2C3" = none ∧
    reg_search acN12.callsign.data = true ∧
    acN12.callsign.length ≤ 4 ∧
    mlookup (Tracker.process_one trigConst 0 (st0, []) ("A1B2C3", acN12)).1.tracking
      "A1B2C3" = none := by decide

/-- C1 witness: a callsign longer than 4 characters passing every admission
condition does create a track. -/
theorem C1_witness :
    (mlookup (Tracker.process_one trigConst 0 (st0, []) ("A1B2C3", acUAL)).1.tracking
      "A1B2C3").isSome = true :=
  (C1_track_creation_admission trigConst 0 st0 [] "A1B2C3" acUAL (by decide)
    (by decide)).mpr (by decide)

-- ===== C2 =====

/-- C2 (amended): a snapshot for a tracked hex with a strictly newer provider
timestamp rebuilds the interpolator from the new kinematics, records the new
provider timestamp and sets the wall-clock stamp to now, while the stored
snapshot `ac_data` is left unchanged; a snapshot with an older-or-equal
timestamp leaves the track entirely unchanged, and across any tracker step a
surviving track's provider timestamp never decreases (so it is non-decreasing
over the whole run) and its stored snapshot stays frozen. -/
theorem C2_position_update_semantics (trig : Nat → ℚ × ℚ) :
    (∀ (now : ℚ) (st : Tracker) (id : String) (a : AircraftData) (d : TrackData),
      mlookup st.tracking id = some d →
      (d.last_position_update < a.timestamp →
        Tracker.update_position trig now st id a
          = { st with tracking := minsert st.tracking id ({ d with
                position := InterpolatePosition.new trig a.latitude a.longitude
                  a.heading a.ground_speed now
                last_position_update := a.timestamp
                at_last_position_update := now }) }) ∧
      (a.timestamp ≤ d.last_position_update →
        Tracker.update_position trig now st id a = st)) ∧
    (∀ (st : Tracker) (e : TEvent) (h : String) (d d' : TrackData),
      mlookup st.tracking h = some d →
      mlookup (Tracker.step trig st e).tracking h = some d' →
      d.last_position_update ≤ d'.last_position_update ∧ d'.ac_data = d.ac_data) := by
  constructor
  · intro now st id a d hm
    exact ⟨fun hts => update_position_newer trig now st id a d hm hts,
      fun hts => update_position_stale trig now st id a d hm hts⟩
  · intro st e h d d' hd hd'
    have he := evolve_step trig st e h d d' hd hd'
    exact ⟨he.2.2.1, he.2.1.symm⟩

/-- C2 counterexample: after a strictly newer snapshot for hex A1B2C3 is
accepted (the provider timestamp advances from 0 to 2000), the track's stored
snapshot is still the creation snapshot `acUAL` and not the newer `acUAL2`,
so the claim's "replaces the stored snapshot" is false. -/
theorem C2_counterexample :
    acUAL.timestamp < acUAL2.timestamp ∧ acUAL2.latitude ≠ acUAL.latitude ∧
    (mlookup (Tracker.run trigConst st0
        [TEvent.poll [("A1B2C3", acUAL)] 0, TEvent.poll [("A1B2C3", acUAL2)] 6]).tracking
      "A1B2C3").map (fun d => (d.ac_data, d.last_position_update))
      = some (acUAL, 2000) := by decide

/-- C2 witness: a concrete accepted update rebuilds the interpolator and both
timestamps, and a stale update is dropped. -/
theorem C2_witness :
    (Tracker.update_position trigConst 5 stW "H" acUAL2
      = { stW with tracking := minsert stW.tracking "H" ({ dW with
            position := InterpolatePosition.new trigConst acUAL2.latitude
              acUAL2.longitude acUAL2.heading acUAL2.ground_speed 5
            last_position_update := acUAL2.timestamp
            at_last_position_update := 5 }) }) ∧
    Tracker.update_position trigConst 9
      { stW with tracking := minsert stW.tracking "H" ({ dW with
          last_position_update := 3000 }) } "H" acUAL2
      = { stW with tracking := minsert stW.tracking "H" ({ dW with
          last_position_update := 3000 }) } :=
  ⟨((C2_position_update_semantics trigConst).1 5 stW "H" acUAL2 dW (by decide)).1
      (by decide),
   ((C2_position_update_semantics trigConst).1 9 _ "H" acUAL2
      ({ dW with last_position_update := 3000 }) (by decide)).2 (by decide)⟩

-- ===== C3 =====

/-- C3 (confirmed): in every reachable tracker state (any event sequence from
the initial state), the callsign index and the track map are mutual inverses
on their common domain — the index maps `cs` to `h` exactly when the track
stored under `h` carries callsign `cs` — and consequently no two live tracks
share a callsign. -/
theorem C3_callsign_index_inverse (trig : Nat → ℚ × ℚ) (fl ce : Int)
    (evs : List TEvent) :
    (∀ cs h, mlookup (Tracker.run trig (Tracker.init fl ce) evs).callsign_map cs
        = some h ↔
      ∃ d, mlookup (Tracker.run trig (Tracker.init fl ce) evs).tracking h = some d ∧
        d.ac_data.callsign = cs) ∧
    (∀ h1 h2 d1 d2,
      mlookup (Tracker.run trig (Tracker.init fl ce) evs).tracking h1 = some d1 →
      mlookup (Tracker.run trig (Tracker.init fl ce) evs).tracking h2 = some d2 →
      d1.ac_data.callsign = d2.ac_data.callsign → h1 = h2) := by
  have hinv := inv_run trig evs (Tracker.init fl ce) (inv_init fl ce)
  refine ⟨hinv.2, ?_⟩
  intro h1 h2 d1 d2 hd1 hd2 hcs
  have e1 : mlookup (Tracker.run trig (Tracker.init fl ce) evs).callsign_map
      d1.ac_data.callsign = some h1 := (hinv.2 _ h1).mpr ⟨d1, hd1, rfl⟩
  have e2 : mlookup (Tracker.run trig (Tracker.init fl ce) evs).callsign_map
      d1.ac_data.callsign = some h2 := (hinv.2 _ h2).mpr ⟨d2, hd2, hcs.symm⟩
  rw [e1] at e2
  exact Option.some.inj e2

/-- C3 witness: in the concrete one-batch run, the index entry for UAL123
yields the hex whose track carries that callsign. -/
theorem C3_witness :
    ∃ d, mlookup (Tracker.run trigConst (Tracker.init 0 99999)
        [TEvent.poll [("A1B2C3", acUAL)] 0]).tracking "A1B2C3" = some d ∧
      d.ac_data.callsign = "UAL123" :=
  ((C3_callsign_index_inverse trigConst 0 99999
      [TEvent.poll [("A1B2C3", acUAL)] 0]).1 "UAL123" "A1B2C3").mp (by decide)

-- ===== C4 =====

/-- C4 (amended): when a polling batch is applied, a pre-existing track
survives if and only if its hex appears in the batch with at least one
snapshot whose trimmed callsign is non-empty and whose altitude lies within
[floor, ceiling]; a hex appearing only in snapshots that fail those filters
is evicted just as an absent hex is, and each removed track's callsign-index
entry is removed together with it. -/
theorem C4_eviction_rule (trig : Nat → ℚ × ℚ) (now : ℚ) (st : Tracker)
    (batch : List (String × AircraftData)) (h : String) (d : TrackData)
    (hd : mlookup st.tracking h = some d) :
    ((mlookup (Tracker.apply_batch trig now st batch).tracking h).isSome = true ↔
      ∃ a, (h, a) ∈ batch ∧ trim_empty a.callsign = false ∧
        st.floor ≤ a.altitude ∧ a.altitude ≤ st.ceiling) ∧
    (¬(∃ a, (h, a) ∈ batch ∧ trim_empty a.callsign = false ∧
        st.floor ≤ a.altitude ∧ a.altitude ≤ st.ceiling) →
      mlookup (Tracker.apply_batch trig now st batch).tracking h = none ∧
      mlookup (Tracker.apply_batch trig now st batch).callsign_map
        d.ac_data.callsign = none) := by
  have heff := apply_batch_effect trig now st batch h d hd
  constructor
  · constructor
    · intro hsome
      by_contra hnex
      rw [(heff.2 hnex).1] at hsome
      simp at hsome
    · intro hex
      obtain ⟨d', hd', _⟩ := heff.1 hex
      rw [hd']
      rfl
  · exact heff.2

/-- C4 counterexample: hex A1B2C3 appears in the second batch (with an
out-of-band altitude), yet its track is destroyed when that batch is applied,
so "the surviving tracks are precisely those whose hex appeared in the batch"
is false. -/
theorem C4_counterexample :
    ("A1B2C3", acHighAlt) ∈ [("A1B2C3", acHighAlt)] ∧
    (mlookup st1.tracking "A1B2C3").isSome = true ∧
    mlookup (Tracker.run trigConst st0
      [TEvent.poll [("A1B2C3", acUAL)] 0,
       TEvent.poll [("A1B2C3", acHighAlt)] 6]).tracking "A1B2C3" = none := by decide

/-- C4 witness: applying a batch in which the tracked hex only appears with
an out-of-band altitude removes the track and its callsign-index entry. -/
theorem C4_witness :
    mlookup (Tracker.apply_batch trigConst 6 st1 [("A1B2C3", acHighAlt)]).tracking
      "A1B2C3" = none ∧
    mlookup (Tracker.apply_batch trigConst 6 st1 [("A1B2C3", acHighAlt)]).callsign_map
      "UAL123" = none :=
  (C4_eviction_rule trigConst 6 st1 [("A1B2C3", acHighAlt)] "A1B2C3"
      (TrackData.new "A1B2C3" acUAL 0) (by decide)).2
    (by
      rintro ⟨a, ha, _, _, hce⟩
      have : a = acHighAlt := by
        have := List.mem_singleton.mp ha
        rw [Prod.mk.injEq] at this
        exact this.2
      rw [this] at hce
      exact absurd hce (by decide))

-- ===== C5 =====

/-- C5 (confirmed): while buffering, a poll only appends the fetched batch to
the buffer, leaving every other component (track map, callsign index,
flight-plan jobs) unchanged; when buffering is off, a poll applies exactly
the front of the queue grown by the fetched batch, keeping the rest; and over
any run from the initial state the applied batches followed by the remaining
buffer are exactly the fetched batches in order — FIFO. -/
theorem C5_buffering_fifo (trig : Nat → ℚ × ℚ) :
    (∀ (st : Tracker) (fetched : List (String × AircraftData)) (now : ℚ),
      st.is_buffering = true →
      Tracker.step trig st (TEvent.poll fetched now)
        = { st with buffer := st.buffer ++ [fetched] }) ∧
    (∀ (st : Tracker) (fetched b : List (String × AircraftData))
       (rest : List (List (String × AircraftData))) (now : ℚ),
      st.is_buffering = false → st.buffer ++ [fetched] = b :: rest →
      Tracker.step trig st (TEvent.poll fetched now)
        = Tracker.apply_batch trig now { st with buffer := rest } b) ∧
    (∀ (fl ce : Int) (evs : List TEvent),
      Tracker.applied_list trig (Tracker.init fl ce) evs
          ++ (Tracker.run trig (Tracker.init fl ce) evs).buffer
        = polled_list evs) := by
  refine ⟨?_, ?_, ?_⟩
  · intro st fetched now hb
    exact update_aircraft_buffering trig now st fetched hb
  · intro st fetched b rest now hb hl
    exact update_aircraft_applies trig now st fetched b rest hb hl
  · intro fl ce evs
    have := fifo_run trig evs (Tracker.init fl ce)
    simpa using this

/-- C5 witness: with buffering on, a poll leaves the maps untouched and only
extends the buffer; with buffering off and an empty buffer, the freshly
fetched batch itself is applied. -/
theorem C5_witness :
    Tracker.step trigConst { st0 with is_buffering := true }
        (TEvent.poll [("A1B2C3", acUAL)] 0)
      = { st0 with is_buffering := true, buffer := [[("A1B2C3", acUAL)]] } ∧
    Tracker.step trigConst st0 (TEvent.poll [("A1B2C3", acUAL)] 0)
      = Tracker.apply_batch trigConst 0 st0 [("A1B2C3", acUAL)] :=
  ⟨(C5_buffering_fifo trigConst).1 { st0 with is_buffering := true }
      [("A1B2C3", acUAL)] 0 rfl,
   (C5_buffering_fifo trigConst).2.1 st0 [("A1B2C3", acUAL)] [("A1B2C3", acUAL)] [] 0
      rfl rfl⟩

-- ===== C6 =====

/-- C6 (the claim is right and the code is wrong): when a track is created,
`TrackData::new` installs `InterpolatePosition::default()` — the (0,0) fix
with zero velocity — and the creating snapshot is consumed by
`check_and_create_new_aircraft` without ever reaching `update_position`, so
the first position obtained from the new track's interpolator is (0,0) and
not the creating snapshot's (40, -74). -/
theorem C6_created_interpolator_is_default :
    mlookup st1.tracking "A1B2C3" = some (TrackData.new "A1B2C3" acUAL 0) ∧
    (TrackData.new "A1B2C3" acUAL 0).position = InterpolatePosition.default 0 ∧
    (((TrackData.new "A1B2C3" acUAL 0).position.get 5).1 = ⟨0, 0⟩) ∧
    (acUAL.latitude, acUAL.longitude) = (40, -74) ∧
    ((⟨0, 0⟩ : LatLon) ≠ ⟨40, -74⟩) := by
  refine ⟨by decide, rfl, ?_, rfl, by decide⟩
  show (InterpolatePosition.get (InterpolatePosition.default 0) 5).1 = _
  simp [InterpolatePosition.get, InterpolatePosition.default]

-- ===== C7 =====

/-- C7 (amended): only the update path of an admitted snapshot attempts a
flight plan — creation never does.  When a snapshot updates a tracked hex
whose flag is unset and whose plan is unattached, the flag is set to true and
a job for (hex, stored callsign) is logged if and only if the stored callsign
contains a match of the source's unanchored pattern `[A-z]{3}\d+`; a snapshot
for an untracked hex never logs a job and any track it creates has the flag
unset; and once a track's flag is true, no tracker step ever logs another job
for that hex while the track lives. -/
theorem C7_flightplan_trigger (trig : Nat → ℚ × ℚ) (now : ℚ) :
    (∀ (st : Tracker) (id : String) (a : AircraftData) (d : TrackData),
      mlookup st.tracking id = some d → d.fp = none → d.fp_did_try_update = false →
      (∃ d', mlookup (Tracker.try_update_flightplan
            (Tracker.update_position trig now st id a) id).tracking id = some d'
          ∧ d'.fp_did_try_update = true) ∧
      (Tracker.try_update_flightplan
          (Tracker.update_position trig now st id a) id).fp_jobs
        = st.fp_jobs ++ (if airline_search d.ac_data.callsign.data
            then [(id, d.ac_data.callsign)] else [])) ∧
    (∀ (st : Tracker) (pr : List String) (id : String) (a : AircraftData),
      mlookup st.tracking id = none →
      (Tracker.process_one trig now (st, pr) (id, a)).1.fp_jobs = st.fp_jobs ∧
      (∀ d', mlookup (Tracker.process_one trig now (st, pr) (id, a)).1.tracking id
          = some d' → d'.fp_did_try_update = false)) ∧
    (∀ (st : Tracker) (e : TEvent) (h : String) (d : TrackData),
      mlookup st.tracking h = some d → d.fp_did_try_update = true →
      (Tracker.step trig st e).fp_jobs.filter (fun q => q.1 = h)
        = st.fp_jobs.filter (fun q => q.1 = h)) := by
  refine ⟨?_, ?_, ?_⟩
  · intro st id a d hm hfp hflag
    obtain ⟨d1, hd1, hfp1, hflag1, hac1⟩ := update_position_track trig now st id a d hm
    have heff := try_update_effect (Tracker.update_position trig now st id a) id d1 hd1
      (hfp1.trans hfp) (hflag1.trans hflag)
    refine ⟨heff.1, ?_⟩
    rw [heff.2, (stable_update_position trig now st id a).2.2.2.2]
    have : d1.ac_data.is_airline = airline_search d.ac_data.callsign.data := by
      rw [hac1]
      rfl
    rw [this, hac1]
  · intro st pr id a hm
    by_cases h1 : elem_s pr id = true
    · rw [process_one_skip1 trig now (st, pr) (id, a) h1]
      refine ⟨rfl, ?_⟩
      intro d' hd'
      dsimp only at hd'
      rw [hm] at hd'
      cases hd'
    · by_cases h2 : trim_empty a.callsign = true
      · rw [process_one_skip2 trig now (st, pr) (id, a) h1 h2]
        refine ⟨rfl, ?_⟩
        intro d' hd'
        dsimp only at hd'
        rw [hm] at hd'
        cases hd'
      · by_cases h3 : a.altitude < st.floor ∨ a.altitude > st.ceiling
        · rw [process_one_skip3 trig now (st, pr) (id, a) h1 h2 h3]
          refine ⟨rfl, ?_⟩
          intro d' hd'
          dsimp only at hd'
          rw [hm] at hd'
          cases hd'
        · by_cases h4 : (Tracker.check_and_create st id a now).2 = true
          · rw [process_one_created trig now (st, pr) (id, a) h1 h2 h3 h4]
            refine ⟨(stable_check_and_create st id a now).2.2.2.2, ?_⟩
            intro d' hd'
            dsimp only at hd'
            rw [check_and_create_created st id a now h4] at hd'
            rw [← Option.some.inj hd']
            rfl
          · rw [process_one_updated trig now (st, pr) (id, a) h1 h2 h3 h4]
            rw [check_and_create_not_created st id a now (Bool.eq_false_iff.mpr h4),
                update_position_none trig now st id a hm, try_update_none st id hm]
            refine ⟨rfl, ?_⟩
            intro d' hd'
            dsimp only at hd'
            rw [hm] at hd'
            cases hd'
  · intro st e h d hd hf
    exact flag_jobs_step trig st e h d hd hf

/-- C7 counterexample: the creating snapshot for UAL123 is admitted (the
track exists afterwards) and its callsign matches the airline pattern, yet
after the creating batch the track's `fp_attempted` flag is still false and
no flight-plan job has been submitted — creation does not trigger the
flight-plan request the claim demands. -/
theorem C7_counterexample :
    airline_search acUAL.callsign.data = true ∧
    (mlookup st1.tracking "A1B2C3").map (fun d => d.fp_did_try_update)
      = some false ∧
    st1.fp_jobs = [] := by decide

/-- C7 witness: the first update of the freshly created airline track sets
the flag and logs exactly one job for (hex, callsign). -/
theorem C7_witness :
    (Tracker.try_update_flightplan
        (Tracker.update_position trigConst 5 stW "H" acUAL2) "H").fp_jobs
      = stW.fp_jobs ++ [("H", "UAL123")] := by
  have h := ((C7_flightplan_trigger trigConst 5).1 stW "H" acUAL2 dW (by decide)
    rfl rfl).2
  rw [if_pos (by decide : airline_search dW.ac_data.callsign.data = true)] at h
  exact h

-- ===== C8 =====

/-- C8 (confirmed): an error result from the flight-plan enricher leaves the
tracker state completely unchanged (in particular `fp_attempted` stays true,
so the request is never retried); an Ok result attaches the plan to the
matching track only if that track is still present and touches no other
track; and across any step a surviving track's `fp_attempted` never goes from
true to false and its `flight_plan` never unsets once set. -/
theorem C8_flightplan_result_handling (trig : Nat → ℚ × ℚ) :
    (∀ (st : Tracker) (e : String), Tracker.step trig st (TEvent.fpErr e) = st) ∧
    (∀ (st : Tracker) (r : FPResult),
      (mlookup st.tracking r.id = none → Tracker.step trig st (TEvent.fpOk r) = st) ∧
      (∀ d, mlookup st.tracking r.id = some d →
        Tracker.step trig st (TEvent.fpOk r)
          = { st with tracking := minsert st.tracking r.id { d with fp := some r.fp } }) ∧
      (∀ h, ¬r.id = h →
        mlookup (Tracker.step trig st (TEvent.fpOk r)).tracking h
          = mlookup st.tracking h)) ∧
    (∀ (st : Tracker) (e : TEvent) (h : String) (d d' : TrackData),
      mlookup st.tracking h = some d →
      mlookup (Tracker.step trig st e).tracking h = some d' →
      (d.fp_did_try_update = true → d'.fp_did_try_update = true) ∧
      (d.fp.isSome = true → d'.fp.isSome = true)) := by
  refine ⟨?_, ?_, ?_⟩
  · intro st e
    rfl
  · intro st r
    refine ⟨?_, ?_, ?_⟩
    · intro hm
      show Tracker.update_flightplan st r.id r.fp = st
      exact update_flightplan_none st r.id r.fp hm
    · intro d hm
      show Tracker.update_flightplan st r.id r.fp = _
      exact update_flightplan_some st r.id r.fp d hm
    · intro h hne
      show mlookup (Tracker.update_flightplan st r.id r.fp).tracking h = _
      unfold Tracker.update_flightplan
      cases hm : mlookup st.tracking r.id with
      | none => rfl
      | some d =>
        dsimp only
        rw [mlookup_minsert, if_neg hne]
  · intro st e h d d' hd hd'
    have he := evolve_step trig st e h d d' hd hd'
    exact ⟨he.2.2.2.1, he.2.2.2.2⟩

/-- C8 witness: an error result leaves the concrete state unchanged, and an
Ok result attaches the plan to the matching live track. -/
theorem C8_witness :
    Tracker.step trigConst stW (TEvent.fpErr "not found") = stW ∧
    Tracker.step trigConst stW (TEvent.fpOk ⟨"H", "UAL123", ⟨7⟩⟩)
      = { stW with tracking := minsert stW.tracking "H" { dW with fp := some ⟨7⟩ } } :=
  ⟨(C8_flightplan_result_handling trigConst).1 stW "not found",
   ((C8_flightplan_result_handling trigConst).2.1 stW ⟨"H", "UAL123", ⟨7⟩⟩).2.1 dW
     (by decide)⟩

-- ===== C9 =====

/-- C9 (amended): on the position cadence the server emits, for each track,
exactly the line `@N:<callsign>:<squawk>:1:<lat>:<lon>:<alt>:<gs>:<pbh>:0`
followed by CRLF; the emitted position is the interpolated fix if and only if
the aircraft is not on the ground and less than 20 seconds of wall clock have
passed since the last accepted position update, and otherwise it is the
interpolator's cached last-returned position (`get_no_update`), which may
itself be a previously extrapolated point; `pbh` is
`(heading · 1024 / 360) << 2` with pitch and bank zero. -/
theorem C9_position_emission (d : TrackData) (now : ℚ) (b : Bool) :
    (choose_interpolate d now = true ↔
      (d.ac_data.is_on_ground = false ∧ now - d.at_last_position_update < 20)) ∧
    ((build_aircraft_string d b now).1
      = "@N:" ++ d.ac_data.callsign ++ ":" ++ d.ac_data.squawk ++ ":1:"
        ++ toString (if b then (d.position.get now).1.lat
            else d.position.get_no_update.lat) ++ ":"
        ++ toString (if b then (d.position.get now).1.lon
            else d.position.get_no_update.lon) ++ ":"
        ++ toString d.ac_data.altitude ++ ":" ++ toString d.ac_data.ground_speed ++ ":"
        ++ toString (d.ac_data.heading * 1024 / 360 * 4) ++ ":0" ++ "\r\n") ∧
    ((d.position.get now).1
      = ⟨d.position.pos.lat + d.position.speed.lat * max (now - d.position.time - 1) 0,
         d.position.pos.lon + d.position.speed.lon * max (now - d.position.time - 1) 0⟩) ∧
    (∀ timer : Option ℚ, position_cadence_fires timer now = true ↔
      (timer = none ∨ ∃ t, timer = some t ∧ 5 ≤ now - t)) := by
  refine ⟨?_, ?_, rfl, ?_⟩
  · simp [choose_interpolate, Bool.and_eq_true, Bool.not_eq_true', decide_eq_true_eq]
  · cases b <;> rfl
  · intro timer
    cases timer with
    | none => simp [position_cadence_fires]
    | some t => simp [position_cadence_fires, decide_eq_true_eq]

/-- Reachable interpolator state of the UAL123 track: an accepted fix
(40, -74) at wall clock 0 followed by an interpolated emission at wall
clock 3, which caches the extrapolated point in `last_call`. -/
def ipC9 : InterpolatePosition :=
  ((InterpolatePosition.new trigConst 40 (-74) 0 3600 0).get 3).2

/-- The UAL123 track carrying that interpolator state. -/
def dC9 : TrackData := { TrackData.new "A1B2C3" acUAL 0 with position := ipC9 }

/-- C9 counterexample: at wall clock 25 the track is stale (≥ 20 s), so the
emission takes the non-interpolated branch and carries `get_no_update` — but
that cached value is the extrapolated point (40 + 2/69, -74) from the earlier
emission, not the unextrapolated fix (40, -74), so the claim's "cached
unextrapolated fix" is false. -/
theorem C9_counterexample :
    choose_interpolate dC9 25 = false ∧
    dC9.position.get_no_update = ⟨40 + 2/69, -74⟩ ∧
    dC9.position.pos = ⟨40, -74⟩ ∧
    dC9.position.get_no_update ≠ dC9.position.pos := by
  have h2 : dC9.position.get_no_update = (⟨40 + 2/69, -74⟩ : LatLon) := by
    show ipC9.last_call = _
    simp only [ipC9, InterpolatePosition.new, InterpolatePosition.get, trigConst]
    norm_num
  have h3 : dC9.position.pos = (⟨40, -74⟩ : LatLon) := rfl
  refine ⟨?_, h2, h3, ?_⟩
  · show (!dC9.ac_data.is_on_ground
      && decide ((25 : ℚ) - dC9.at_last_position_update < 20)) = false
    show (!false && decide ((25 : ℚ) - 0 < 20)) = false
    norm_num
  · rw [h2, h3]
    intro hcontra
    rw [LatLon.mk.injEq] at hcontra
    have := hcontra.1
    norm_num at this

/-- C9 witness: the emission equations instantiated at the stale track and
wall clock 25. -/
theorem C9_witness :
    (build_aircraft_string dC9 false 25).1
      = "@N:" ++ dC9.ac_data.callsign ++ ":" ++ dC9.ac_data.squawk ++ ":1:"
        ++ toString dC9.position.get_no_update.lat ++ ":"
        ++ toString dC9.position.get_no_update.lon ++ ":"
        ++ toString dC9.ac_data.altitude ++ ":" ++ toString dC9.ac_data.ground_speed ++ ":"
        ++ toString (dC9.ac_data.heading * 1024 / 360 * 4) ++ ":0" ++ "\r\n" :=
  (C9_position_emission dC9 25 false).2.1

-- ===== C10 =====

/-- C10 (amended): the field-level merge is a deterministic function but it
is order-dependent, not order-independent: the fused record always keeps the
left operand's squawk, on-ground flag, ground speed, timestamp and hex, so
whenever the two snapshots' timestamps differ, combining a with b differs
from combining b with a. -/
theorem C10_combine_order_dependent (a b : AircraftData)
    (hts : a.timestamp ≠ b.timestamp) :
    AircraftData.combine_with a b ≠ AircraftData.combine_with b a ∧
    (AircraftData.combine_with a b).timestamp = a.timestamp ∧
    (AircraftData.combine_with a b).squawk = a.squawk ∧
    (AircraftData.combine_with a b).ground_speed = a.ground_speed ∧
    (AircraftData.combine_with a b).is_on_ground = a.is_on_ground ∧
    (AircraftData.combine_with a b).hex = a.hex := by
  refine ⟨?_, rfl, rfl, rfl, rfl, rfl⟩
  intro hcomb
  have hts2 : (AircraftData.combine_with a b).timestamp
      = (AircraftData.combine_with b a).timestamp := by rw [hcomb]
  exact hts hts2

/-- C10 counterexample: two snapshots for the same hex with different
timestamps fuse to different records depending on the order — the fused
timestamp is the left operand's. -/
theorem C10_counterexample :
    acUAL.hex = acUAL2.hex ∧
    (AircraftData.combine_with acUAL acUAL2).timestamp = 1000 ∧
    (AircraftData.combine_with acUAL2 acUAL).timestamp = 2000 ∧
    AircraftData.combine_with acUAL acUAL2 ≠ AircraftData.combine_with acUAL2 acUAL := by
  decide

/-- C10 witness: the order-dependence theorem applied to the two concrete
snapshots of hex A1B2C3. -/
theorem C10_witness :
    AircraftData.combine_with acUAL acUAL2 ≠ AircraftData.combine_with acUAL2 acUAL :=
  (C10_combine_order_dependent acUAL acUAL2 (by decide)).1
